import Mathlib

/-!
Verification of the multi-strategy analyzer core: strategy signal generation
(Channel-Cross, MA-Cross, Market-Structure-Shift), the bar-by-bar backtester,
the grid-search optimizer and the multi-asset scanner, shallowly embedded from
the Python source.  Floats are modelled as rationals extended with a NaN value
(`Val`); pandas columns are lists; per-row operations are index-aligned zips.
-/

/-- A pandas float cell: either a rational number or NaN.  Every comparison
involving NaN is `false` (Python/numpy semantics); arithmetic propagates NaN. -/
inductive Val where
  | nan : Val
  | num : ℚ → Val
deriving DecidableEq, Repr

namespace Val

/-- `pd.isna` on a float cell. -/
def isna : Val → Bool
  | .nan => true
  | .num _ => false

/-- Python `<=` on floats: `false` whenever either side is NaN. -/
def vle : Val → Val → Bool
  | .num a, .num b => decide (a ≤ b)
  | _, _ => false

/-- Python `<` on floats: `false` whenever either side is NaN. -/
def vlt : Val → Val → Bool
  | .num a, .num b => decide (a < b)
  | _, _ => false

/-- Python `>=` on floats: `false` whenever either side is NaN. -/
def vge : Val → Val → Bool
  | .num a, .num b => decide (b ≤ a)
  | _, _ => false

/-- Python `>` on floats: `false` whenever either side is NaN. -/
def vgt : Val → Val → Bool
  | .num a, .num b => decide (b < a)
  | _, _ => false

/-- Python `==` against a numeric literal: `false` for NaN. -/
def veqn (v : Val) (q : ℚ) : Bool :=
  match v with
  | .nan => false
  | .num a => decide (a = q)

/-- Python truthiness of a float: `0.0` is falsy, every other float —
including NaN — is truthy. -/
def truthy : Val → Bool
  | .nan => true
  | .num a => decide (a ≠ 0)

/-- NaN-propagating addition. -/
def vadd : Val → Val → Val
  | .num a, .num b => .num (a + b)
  | _, _ => .nan

/-- NaN-propagating subtraction. -/
def vsub : Val → Val → Val
  | .num a, .num b => .num (a - b)
  | _, _ => .nan

/-- NaN-propagating multiplication. -/
def vmul : Val → Val → Val
  | .num a, .num b => .num (a * b)
  | _, _ => .nan

/-- NaN-propagating division.  A zero divisor yields a non-numeric result
(numpy produces inf/NaN there; no claim depends on that value, so both are
collapsed to `nan`). -/
def vdiv : Val → Val → Val
  | .num a, .num b => if b = 0 then .nan else .num (a / b)
  | _, _ => .nan

end Val

/-- One raw OHLC bar of the input series (Open and Volume are unused by the
core computations).  Per the data model these are plain numbers, never NaN. -/
structure Bar0 where
  high : ℚ
  low : ℚ
  close : ℚ
deriving DecidableEq, Repr

/-- `Series.ewm(span, adjust=False).mean()` recurrence after the seed:
`y_t = (1-α)·y_{t-1} + α·x_t` with `α = 2/(span+1)`. -/
def ewmAux (a : ℚ) (y : ℚ) : List ℚ → List ℚ
  | [] => []
  | x :: xs =>
      let y2 := (1 - a) * y + a * x
      y2 :: ewmAux a y2 xs

/-- `Series.ewm(span, adjust=False).mean()`: seeded with the first value. -/
def ewmList (span : Nat) : List ℚ → List ℚ
  | [] => []
  | x :: xs => x :: ewmAux (2 / (span + 1)) x xs

/-- `Series.rolling(n).mean()`: mean of the `n`-window ending at each index,
NaN while fewer than `n` observations are available. -/
def rollingMeanQ (n : Nat) (xs : List ℚ) : List Val :=
  (List.range xs.length).map (fun i =>
    if n ≤ i + 1 ∧ 0 < n then
      Val.num (((xs.drop (i + 1 - n)).take n).sum / n)
    else Val.nan)

/-- True range of the bars after the first:
`max(High-Low, |High-prevClose|, |Low-prevClose|)`. -/
def trAux (prev : Bar0) : List Bar0 → List ℚ
  | [] => []
  | b :: bs =>
      max (b.high - b.low) (max |b.high - prev.close| |b.low - prev.close|) ::
        trAux b bs

/-- True-range column.  On the first bar `Close.shift()` is NaN, and
`DataFrame.max(axis=1)` skips NaN, so the first true range is `High - Low`. -/
def trueRangeList : List Bar0 → List ℚ
  | [] => []
  | b :: bs => (b.high - b.low) :: trAux b bs

/-- The ATR block shared verbatim by all three strategy files:
`true_range.rolling(atr_period).mean()`. -/
def atrList (atrPeriod : Nat) (bars : List Bar0) : List Val :=
  rollingMeanQ atrPeriod (trueRangeList bars)

/-- `df['stop_loss'] = df['Close'] - df['atr'] * stop_multiplier`
(shared verbatim by all three strategy files). -/
def stopLossCol (sm : ℚ) (bars : List Bar0) (atr : List Val) : List Val :=
  List.zipWith (fun c a => Val.vsub (Val.num c) (Val.vmul a (Val.num sm)))
    (bars.map (·.close)) atr

/-- `df['target'] = df['Close'] + df['atr'] * stop_multiplier * target_multiplier`
(shared verbatim by all three strategy files). -/
def targetCol (sm tm : ℚ) (bars : List Bar0) (atr : List Val) : List Val :=
  List.zipWith (fun c a => Val.vadd (Val.num c) (Val.vmul a (Val.num (sm * tm))))
    (bars.map (·.close)) atr

/-- `df.sort_values(key, ascending=False)`: sort rows by a numeric key,
descending. -/
def sortDescBy {α : Type} (key : α → ℚ) (l : List α) : List α :=
  List.insertionSort (fun a b => key b ≤ key a) l

/-- Sorted in descending key order. -/
def SortedDesc {α : Type} (key : α → ℚ) (l : List α) : Prop :=
  List.Pairwise (fun a b => key b ≤ key a) l

theorem sortDescBy_perm {α : Type} (key : α → ℚ) (l : List α) :
    (sortDescBy key l).Perm l :=
  List.perm_insertionSort _ l

theorem sortDescBy_sorted {α : Type} (key : α → ℚ) (l : List α) :
    SortedDesc key (sortDescBy key l) := by
  haveI h1 : IsTotal α (fun a b => key b ≤ key a) := ⟨fun a b => le_total (key b) (key a)⟩
  haveI h2 : IsTrans α (fun a b => key b ≤ key a) :=
    ⟨fun _ _ _ hab hbc => le_trans hbc hab⟩
  exact List.sorted_insertionSort _ l

namespace Cacas

/-- Constructor parameters of `CacasChannelStrategy` (defaults from source). -/
structure Params where
  upper : Nat := 20
  under : Nat := 30
  ema : Nat := 9
  atr_period : Nat := 14
  stop_multiplier : ℚ := 3 / 2
  target_multiplier : ℚ := 2
deriving DecidableEq, Repr

/-- The DataFrame flowing through the Cacas pipeline: raw bars plus the
columns the two stages assign (empty before they run). -/
structure CTable where
  bars : List Bar0
  cacas_upper : List Val := []
  cacas_under : List Val := []
  cacas_mid : List Val := []
  ema : List ℚ := []
  atr : List Val := []
  signal : List Nat := []
  stop_loss : List Val := []
  target : List Val := []
deriving DecidableEq, Repr

/-- `CacasChannelStrategy.calculate_indicators`: rolling mean of High over
`upper`, of Low over `under`, their midpoint, EMA of Close, and ATR. -/
def calculate_indicators (p : Params) (t : CTable) : CTable :=
  let up := rollingMeanQ p.upper (t.bars.map (·.high))
  let un := rollingMeanQ p.under (t.bars.map (·.low))
  { t with
    cacas_upper := up
    cacas_under := un
    cacas_mid := List.zipWith (fun a b => Val.vdiv (Val.vadd a b) (Val.num 2)) up un
    ema := ewmList p.ema (t.bars.map (·.close))
    atr := atrList p.atr_period t.bars }

/-- `CacasChannelStrategy.generate_signals`:
`signal = (cacas_mid > ema).astype(int)` plus the shared stop/target columns. -/
def generate_signals (p : Params) (t : CTable) : CTable :=
  { t with
    signal := List.zipWith (fun m e => if Val.vgt m (Val.num e) then 1 else 0)
      t.cacas_mid t.ema
    stop_loss := stopLossCol p.stop_multiplier t.bars t.atr
    target := targetCol p.stop_multiplier p.target_multiplier t.bars t.atr }

/-- `BaseStrategy.calculate_full` specialised to the Cacas strategy. -/
def calculate_full (p : Params) (t : CTable) : CTable :=
  generate_signals p (calculate_indicators p t)

end Cacas

namespace MACross

/-- Constructor parameters of `MovingAverageCrossStrategy`. -/
structure Params where
  fast_period : Nat := 9
  slow_period : Nat := 21
  atr_period : Nat := 14
  stop_multiplier : ℚ := 3 / 2
  target_multiplier : ℚ := 2
deriving DecidableEq, Repr

/-- The DataFrame flowing through the MA-Cross pipeline. -/
structure MTable where
  bars : List Bar0
  ema_fast : List ℚ := []
  ema_slow : List ℚ := []
  atr : List Val := []
  signal : List Nat := []
  stop_loss : List Val := []
  target : List Val := []
deriving DecidableEq, Repr

/-- `MovingAverageCrossStrategy.calculate_indicators`. -/
def calculate_indicators (p : Params) (t : MTable) : MTable :=
  { t with
    ema_fast := ewmList p.fast_period (t.bars.map (·.close))
    ema_slow := ewmList p.slow_period (t.bars.map (·.close))
    atr := atrList p.atr_period t.bars }

/-- `MovingAverageCrossStrategy.generate_signals`:
`signal = (ema_fast > ema_slow).astype(int)` plus shared stop/target. -/
def generate_signals (p : Params) (t : MTable) : MTable :=
  { t with
    signal := List.zipWith (fun f s => if s < f then 1 else 0) t.ema_fast t.ema_slow
    stop_loss := stopLossCol p.stop_multiplier t.bars t.atr
    target := targetCol p.stop_multiplier p.target_multiplier t.bars t.atr }

/-- `BaseStrategy.calculate_full` specialised to the MA-Cross strategy. -/
def calculate_full (p : Params) (t : MTable) : MTable :=
  generate_signals p (calculate_indicators p t)

end MACross

namespace MSS

/-- Constructor parameters of `MSSStrategy`. -/
structure Params where
  swing_length : Nat := 5
  atr_period : Nat := 14
  stop_multiplier : ℚ := 3 / 2
  target_multiplier : ℚ := 2
deriving DecidableEq, Repr

/-- `MSSStrategy._detect_swing_high`: for `i` in
`range(length, len - length)`, mark `i` iff for every `j` in `1..length`
both `High[i-j] < High[i]` and `High[i+j] < High[i]` (the source loop
disqualifies on `>=`); all other indices keep NaN (`none`). -/
def detect_swing_high (highs : List ℚ) (length : Nat) : List (Option ℚ) :=
  (List.range highs.length).map (fun i =>
    if length ≤ i ∧ i + length < highs.length then
      if (List.range length).all (fun j =>
            decide (highs.getD (i - (j + 1)) 0 < highs.getD i 0) &&
            decide (highs.getD (i + (j + 1)) 0 < highs.getD i 0))
      then some (highs.getD i 0) else none
    else none)

/-- `MSSStrategy._detect_swing_low`: symmetric strict-minimum rule. -/
def detect_swing_low (lows : List ℚ) (length : Nat) : List (Option ℚ) :=
  (List.range lows.length).map (fun i =>
    if length ≤ i ∧ i + length < lows.length then
      if (List.range length).all (fun j =>
            decide (lows.getD i 0 < lows.getD (i - (j + 1)) 0) &&
            decide (lows.getD i 0 < lows.getD (i + (j + 1)) 0))
      then some (lows.getD i 0) else none
    else none)

/-- `fillna(method='ffill')` on a sparse column, with the running last value. -/
def ffillAux (last : Val) : List (Option ℚ) → List Val
  | [] => []
  | none :: xs => last :: ffillAux last xs
  | some q :: xs => Val.num q :: ffillAux (Val.num q) xs

/-- `fillna(method='ffill')`: carry the last seen value forward; leading
missing entries stay NaN. -/
def ffill (xs : List (Option ℚ)) : List Val :=
  ffillAux Val.nan xs

/-- The DataFrame flowing through the MSS pipeline. -/
structure MSSTable where
  bars : List Bar0
  swing_high : List (Option ℚ) := []
  swing_low : List (Option ℚ) := []
  last_swing_high : List Val := []
  last_swing_low : List Val := []
  structure_line : List Val := []
  atr : List Val := []
  signal : List Nat := []
  signal_type : List String := []
  stop_loss : List Val := []
  target : List Val := []
deriving DecidableEq, Repr

/-- `MSSStrategy.calculate_indicators`. -/
def calculate_indicators (p : Params) (t : MSSTable) : MSSTable :=
  let sh := detect_swing_high (t.bars.map (·.high)) p.swing_length
  let sl := detect_swing_low (t.bars.map (·.low)) p.swing_length
  let lsh := ffill sh
  let lsl := ffill sl
  { t with
    swing_high := sh
    swing_low := sl
    last_swing_high := lsh
    last_swing_low := lsl
    structure_line := List.zipWith
      (fun a b => Val.vdiv (Val.vadd a b) (Val.num 2)) lsh lsl
    atr := atrList p.atr_period t.bars }

/-- The data the `generate_signals` loop reads for one bar: its Close and
(via the previous row) the forward-filled swing levels. -/
structure MRow where
  close : ℚ
  lsh : Val
  lsl : Val
deriving DecidableEq, Repr

/-- One iteration of the `generate_signals` loop body: given the running
`previous_structure` and the bar's Close against the previous bar's
`last_swing_high`/`last_swing_low`, produce the new structure, the signal and
the tag. -/
def mssStep (prev : Int) (c : ℚ) (lsh lsl : Val) : Int × Nat × String :=
  if Val.vgt (Val.num c) lsh then
    (1, 1, if prev ≤ 0 then "MSS_BULL" else "BOS_BULL")
  else if Val.vlt (Val.num c) lsl then
    (-1, 0, if 0 ≤ prev then "MSS_BEAR" else "BOS_BEAR")
  else
    (prev, if 0 < prev then 1 else 0, "")

/-- The loop `for i in range(1, len(df))`, threading `previous_structure` and
the previous row. -/
def mssLoop (prev : Int) (prevRow : MRow) : List MRow → List (Nat × String)
  | [] => []
  | r :: rs =>
      let s := mssStep prev r.close prevRow.lsh prevRow.lsl
      (s.2.1, s.2.2) :: mssLoop s.1 r rs

/-- Per-row `(signal, signal_type)` of `MSSStrategy.generate_signals`: row 0
keeps the initialisation `(0, '')`; the loop starts at row 1 with
`previous_structure = 0`. -/
def mssSignals : List MRow → List (Nat × String)
  | [] => []
  | r :: rs => (0, "") :: mssLoop 0 r rs

/-- The running `previous_structure` after the loop has classified bar `i`
(index-based characterisation, defined independently of the loop). -/
def mssStructAt (rows : List MRow) : Nat → Int
  | 0 => 0
  | i + 1 =>
      match rows[i]?, rows[i + 1]? with
      | some pr, some r => (mssStep (mssStructAt rows i) r.close pr.lsh pr.lsl).1
      | _, _ => mssStructAt rows i

/-- The row view `generate_signals` reads from the indicator table. -/
def mssRows (t : MSSTable) : List MRow :=
  List.zipWith (fun (c : ℚ) (pr : Val × Val) => MRow.mk c pr.1 pr.2)
    (t.bars.map (·.close)) (t.last_swing_high.zip t.last_swing_low)

/-- `MSSStrategy.generate_signals`. -/
def generate_signals (p : Params) (t : MSSTable) : MSSTable :=
  let sigs := mssSignals (mssRows t)
  { t with
    signal := sigs.map (·.1)
    signal_type := sigs.map (·.2)
    stop_loss := stopLossCol p.stop_multiplier t.bars t.atr
    target := targetCol p.stop_multiplier p.target_multiplier t.bars t.atr }

/-- `BaseStrategy.calculate_full` specialised to the MSS strategy. -/
def calculate_full (p : Params) (t : MSSTable) : MSSTable :=
  generate_signals p (calculate_indicators p t)

/-- A live `MSSStrategy` object: constructor parameters plus the instance
attribute `market_structure` that `__init__` sets to 0. -/
structure Obj where
  swing_length : Nat
  atr_period : Nat
  stop_multiplier : ℚ
  target_multiplier : ℚ
  market_structure : Int
deriving DecidableEq, Repr

/-- `MSSStrategy.__init__`: stores the parameters and sets
`market_structure = 0`. -/
def init (swing_length atr_period : Nat) (sm tm : ℚ) : Obj :=
  ⟨swing_length, atr_period, sm, tm, 0⟩

/-- The parameter view of an object. -/
def Obj.params (s : Obj) : Params :=
  ⟨s.swing_length, s.atr_period, s.stop_multiplier, s.target_multiplier⟩

/-- `calculate_indicators` as a method: the body reads the parameter
attributes only and assigns no instance attribute, so the object comes back
unchanged. -/
def calculate_indicators_m (s : Obj) (t : MSSTable) : Obj × MSSTable :=
  (s, calculate_indicators s.params t)

/-- `generate_signals` as a method: the loop threads the *local* variable
`previous_structure` (initialised to 0 inside the call) and never reads or
writes `self.market_structure`. -/
def generate_signals_m (s : Obj) (t : MSSTable) : Obj × MSSTable :=
  (s, generate_signals s.params t)

/-- `calculate_full` as a method, threading the object through both stages. -/
def calculate_full_m (s : Obj) (t : MSSTable) : Obj × MSSTable :=
  let a := calculate_indicators_m s t
  generate_signals_m a.1 a.2

end MSS

namespace Backtest

/-- One row of the processed daily table as `_simulate_trades` reads it.
`stop_loss`/`target` are `none` when the column is absent from the row
(`row.get` then falls back) and `some v` — possibly `some nan` — when present. -/
structure BBar where
  date : Int
  high : Val
  low : Val
  close : Val
  signal : Val
  stop_loss : Option Val
  target : Option Val
deriving DecidableEq, Repr

/-- The open-position state captured at entry. -/
structure Position where
  entry_price : Val
  entry_date : Int
  stop_loss : Val
  target : Val
deriving DecidableEq, Repr

/-- One appended trade record. -/
structure Trade where
  entry_date : Int
  exit_date : Int
  entry_price : Val
  exit_price : Val
  stop_loss : Val
  target : Val
  pnl : Val
  pnl_pct : Val
  exit_reason : String
  duration_days : Int
deriving DecidableEq, Repr

/-- Build the trade dict appended by `_simulate_trades`. -/
def mkTrade (p : Position) (exitDate : Int) (exitPrice : Val) (reason : String) :
    Trade :=
  let pnl := Val.vsub exitPrice p.entry_price
  { entry_date := p.entry_date
    exit_date := exitDate
    entry_price := p.entry_price
    exit_price := exitPrice
    stop_loss := p.stop_loss
    target := p.target
    pnl := pnl
    pnl_pct := Val.vmul (Val.vdiv pnl p.entry_price) (Val.num 100)
    exit_reason := reason
    duration_days := exitDate - p.entry_date }

/-- The loop state of `_simulate_trades`: `in_position` plus the captured
levels, and the ledger built so far. -/
structure SimState where
  pos : Option Position
  trades : List Trade
deriving DecidableEq, Repr

/-- The initial state. -/
def initState : SimState := { pos := none, trades := [] }

/-- One iteration of the `_simulate_trades` loop.  Bars with NaN signal or
Close are skipped.  From FLAT, `signal == 1` enters (capturing stop/target
with the ±5%/+10% fallback only when the column is absent).  From LONG the
exits are tried in the order stop, target, signal; the append is guarded by
Python truthiness of the chosen exit price (`if exit_price:`). -/
def simStep (st : SimState) (row : BBar) : SimState :=
  if row.signal.isna || row.close.isna then st
  else
    match st.pos with
    | none =>
        if row.signal.veqn 1 then
          { st with pos := some {
              entry_price := row.close
              entry_date := row.date
              stop_loss := row.stop_loss.getD (Val.vmul row.close (Val.num (95 / 100)))
              target := row.target.getD (Val.vmul row.close (Val.num (110 / 100))) } }
        else st
    | some p =>
        let exitInfo : Option (Val × String) :=
          if Val.vle row.low p.stop_loss then some (p.stop_loss, "stop_loss")
          else if Val.vge row.high p.target then some (p.target, "target")
          else if row.signal.veqn 0 then some (row.close, "signal_exit")
          else none
        match exitInfo with
        | none => st
        | some es =>
            if es.1.truthy then
              { pos := none, trades := st.trades ++ [mkTrade p row.date es.1 es.2] }
            else st

/-- `StrategyBacktester._simulate_trades`: fold the loop over the bars, then
flush a still-open position at the last bar's Close with reason
`end_of_period`. -/
def simulate_trades (rows : List BBar) : List Trade :=
  let final := rows.foldl simStep initState
  match final.pos, rows.getLast? with
  | some p, some lastRow =>
      final.trades ++ [mkTrade p lastRow.date lastRow.close ("end_of_period")]
  | _, _ => final.trades

end Backtest

namespace Optimizer

/-- One collected result row of `StrategyOptimizer.optimize`: the parameter
combination (values in grid-key order, as built by `dict(zip(param_names,
combo))`) plus the backtest metrics the ranking can read. -/
structure OptRow where
  params : List ℚ
  convergence : Bool
  total_trades : Nat
  win_rate : ℚ
  profit_factor : ℚ
  total_return : ℚ
  expectancy : ℚ
deriving DecidableEq, Repr

/-- `itertools.product` over the grid's value lists (first key varies
slowest). -/
def cartProd {α : Type} : List (List α) → List (List α)
  | [] => [[]]
  | l :: ls => (l.map (fun x => (cartProd ls).map (fun c => x :: c))).flatten

/-- `StrategyOptimizer._count_combinations`: product of the value-list
lengths. -/
def count_combinations (grid : List (List ℚ)) : Nat :=
  grid.foldl (fun total vs => total * vs.length) 1

/-- The trade-count gate `results_df['total_trades'] >= 3`. -/
def enoughTrades (r : OptRow) : Bool :=
  decide (3 ≤ r.total_trades)

/-- `StrategyOptimizer.optimize` after the per-combination pipeline runs:
`ev` maps a combination to its collected row (`none` when that combination
raised and was skipped), `metric` reads the requested ranking column.
Mirrors: collect → empty check → gate `total_trades >= 3` → empty check
(returning `{}` and the ungated rows) → `sort_values(metric,
ascending=False)` → best = first row's parameters. -/
def optimize (grid : List (List ℚ)) (ev : List ℚ → Option OptRow)
    (metric : OptRow → ℚ) : Option (List ℚ) × List OptRow :=
  let results := (cartProd grid).filterMap ev
  if results.isEmpty then (none, [])
  else
    let gated := results.filter enoughTrades
    if gated.isEmpty then (none, results)
    else
      let ranked := sortDescBy metric gated
      (ranked.head?.map (·.params), ranked)

end Optimizer

namespace Scanner

/-- One collected result row of `MultiAssetScanner.scan`. -/
structure ScanRow where
  ticker : String
  convergence : Bool
  total_trades : Nat
  win_rate : ℚ
  profit_factor : ℚ
  total_return : ℚ
deriving DecidableEq, Repr

/-- The composite ranking score:
`convergence.astype(int) * 100 + profit_factor * 10 + win_rate`. -/
def scanScore (r : ScanRow) : ℚ :=
  (if r.convergence then 1 else 0) * 100 + r.profit_factor * 10 + r.win_rate

/-- The row filter: `total_trades >= 3 AND win_rate >= min_win_rate AND
profit_factor >= min_profit_factor`. -/
def passes (minWR minPF : ℚ) (r : ScanRow) : Bool :=
  decide (3 ≤ r.total_trades) && decide (minWR ≤ r.win_rate) &&
    decide (minPF ≤ r.profit_factor)

/-- `MultiAssetScanner.scan` after per-ticker collection: `fetched` holds one
entry per ticker, `none` for a skipped/failed ticker.  Mirrors: collect →
empty check → filter → sort the survivors by the composite score descending,
or fall back to the full unfiltered result set. -/
def scan (fetched : List (Option ScanRow)) (minWR minPF : ℚ) : List ScanRow :=
  let results := fetched.filterMap id
  if results.isEmpty then []
  else
    let filtered := results.filter (passes minWR minPF)
    if filtered.isEmpty then results
    else sortDescBy scanScore filtered

end Scanner

namespace Cacas

/-- One row of a signal table as `CacasChannelStrategy.check_convergence`
reads it (any float cell may be NaN). -/
structure SigRow where
  signal : Val
  cacas_mid : Val
  ema : Val
  stop_loss : Val
  target : Val
  atr : Val
deriving DecidableEq, Repr

/-- The info dict returned by `CacasChannelStrategy.check_convergence`. -/
structure ConvInfo where
  daily_signal : Bool
  weekly_signal : Bool
  convergence : Bool
  daily_mid : Val
  daily_ema : Val
  weekly_mid : Val
  weekly_ema : Val
  stop_loss : Val
  target : Val
  atr : Val
deriving DecidableEq, Repr

/-- `CacasChannelStrategy.check_convergence`: reads `iloc[-1]` of each table,
substituting 0 whenever a table is empty; convergence is
`daily_signal == 1 and weekly_signal == 1`. -/
def check_convergence (daily weekly : List SigRow) : Bool × ConvInfo :=
  let dsig : Val := match daily.getLast? with | some r => r.signal | none => Val.num 0
  let wsig : Val := match weekly.getLast? with | some r => r.signal | none => Val.num 0
  let conv := dsig.veqn 1 && wsig.veqn 1
  (conv,
    { daily_signal := dsig.truthy
      weekly_signal := wsig.truthy
      convergence := conv
      daily_mid := match daily.getLast? with | some r => r.cacas_mid | none => Val.num 0
      daily_ema := match daily.getLast? with | some r => r.ema | none => Val.num 0
      weekly_mid := match weekly.getLast? with | some r => r.cacas_mid | none => Val.num 0
      weekly_ema := match weekly.getLast? with | some r => r.ema | none => Val.num 0
      stop_loss := match daily.getLast? with | some r => r.stop_loss | none => Val.num 0
      target := match daily.getLast? with | some r => r.target | none => Val.num 0
      atr := match daily.getLast? with | some r => r.atr | none => Val.num 0 })

end Cacas

namespace MACross

/-- One row of a signal table as
`MovingAverageCrossStrategy.check_convergence` reads it. -/
structure SigRow where
  signal : Val
  ema_fast : Val
  ema_slow : Val
  stop_loss : Val
  target : Val
  atr : Val
deriving DecidableEq, Repr

/-- The info dict returned by `MovingAverageCrossStrategy.check_convergence`.
The distance fields hold `(ema_fast - ema_slow) / ema_slow * 100` (a zero
`ema_slow` gives a non-numeric value in numpy, collapsed to NaN here). -/
structure ConvInfo where
  daily_signal : Bool
  weekly_signal : Bool
  convergence : Bool
  daily_ema_fast : Val
  daily_ema_slow : Val
  weekly_ema_fast : Val
  weekly_ema_slow : Val
  daily_distance_pct : Val
  weekly_distance_pct : Val
  stop_loss : Val
  target : Val
  atr : Val
deriving DecidableEq, Repr

/-- `MovingAverageCrossStrategy.check_convergence`. -/
def check_convergence (daily weekly : List SigRow) : Bool × ConvInfo :=
  let dsig : Val := match daily.getLast? with | some r => r.signal | none => Val.num 0
  let wsig : Val := match weekly.getLast? with | some r => r.signal | none => Val.num 0
  let conv := dsig.veqn 1 && wsig.veqn 1
  let ddist : Val := match daily.getLast? with
    | some r => Val.vmul (Val.vdiv (Val.vsub r.ema_fast r.ema_slow) r.ema_slow) (Val.num 100)
    | none => Val.num 0
  let wdist : Val := match weekly.getLast? with
    | some r => Val.vmul (Val.vdiv (Val.vsub r.ema_fast r.ema_slow) r.ema_slow) (Val.num 100)
    | none => Val.num 0
  (conv,
    { daily_signal := dsig.truthy
      weekly_signal := wsig.truthy
      convergence := conv
      daily_ema_fast := match daily.getLast? with | some r => r.ema_fast | none => Val.num 0
      daily_ema_slow := match daily.getLast? with | some r => r.ema_slow | none => Val.num 0
      weekly_ema_fast := match weekly.getLast? with | some r => r.ema_fast | none => Val.num 0
      weekly_ema_slow := match weekly.getLast? with | some r => r.ema_slow | none => Val.num 0
      daily_distance_pct := ddist
      weekly_distance_pct := wdist
      stop_loss := match daily.getLast? with | some r => r.stop_loss | none => Val.num 0
      target := match daily.getLast? with | some r => r.target | none => Val.num 0
      atr := match daily.getLast? with | some r => r.atr | none => Val.num 0 })

end MACross

namespace MSS

/-- One row of a signal table as `MSSStrategy.check_convergence` reads it. -/
structure ConvRow where
  signal : Val
  signal_type : String
  last_swing_high : Val
  last_swing_low : Val
  stop_loss : Val
  target : Val
  atr : Val
  close : Val
deriving DecidableEq, Repr

/-- The info dict returned by `MSSStrategy.check_convergence`. -/
structure ConvInfo where
  daily_signal : Bool
  weekly_signal : Bool
  convergence : Bool
  daily_signal_type : String
  weekly_signal_type : String
  daily_swing_high : Val
  daily_swing_low : Val
  weekly_swing_high : Val
  weekly_swing_low : Val
  stop_loss : Val
  target : Val
  atr : Val
  entry_price : Val
deriving DecidableEq, Repr

/-- `MSSStrategy.check_convergence`. -/
def check_convergence (daily weekly : List ConvRow) : Bool × ConvInfo :=
  let dsig : Val := match daily.getLast? with | some r => r.signal | none => Val.num 0
  let wsig : Val := match weekly.getLast? with | some r => r.signal | none => Val.num 0
  let conv := dsig.veqn 1 && wsig.veqn 1
  (conv,
    { daily_signal := dsig.truthy
      weekly_signal := wsig.truthy
      convergence := conv
      daily_signal_type := match daily.getLast? with | some r => r.signal_type | none => ""
      weekly_signal_type := match weekly.getLast? with | some r => r.signal_type | none => ""
      daily_swing_high := match daily.getLast? with | some r => r.last_swing_high | none => Val.num 0
      daily_swing_low := match daily.getLast? with | some r => r.last_swing_low | none => Val.num 0
      weekly_swing_high := match weekly.getLast? with | some r => r.last_swing_high | none => Val.num 0
      weekly_swing_low := match weekly.getLast? with | some r => r.last_swing_low | none => Val.num 0
      stop_loss := match daily.getLast? with | some r => r.stop_loss | none => Val.num 0
      target := match daily.getLast? with | some r => r.target | none => Val.num 0
      atr := match daily.getLast? with | some r => r.atr | none => Val.num 0
      entry_price := match daily.getLast? with | some r => r.close | none => Val.num 0 })

end MSS

/-- One pipeline stage at the object level, for the aliasing/frame analysis.
Tables live in a store (list of table objects); a reference is an index.
`df = df.copy()` allocates a new object holding the same table; the
subsequent in-place column assignments update only that new object; the
method returns the new reference. -/
def stageSt {α : Type} (f : α → α) (dflt : α) (s : List α) (r : Nat) :
    List α × Nat :=
  let t := s.getD r dflt
  let s1 := s ++ [t]
  let s2 := s1.set s.length (f t)
  (s2, s.length)

/-- `BaseStrategy.calculate_full` at the object level: the
`calculate_indicators` stage then the `generate_signals` stage, each with its
own copy-before-annotate discipline. -/
def fullPipelineSt {α : Type} (fInd fSig : α → α) (dflt : α)
    (s : List α) (r : Nat) : List α × Nat :=
  let a := stageSt fInd dflt s r
  stageSt fSig dflt a.1 a.2

/-- The empty DataFrame object used as lookup default in the store model. -/
def Cacas.emptyTable : Cacas.CTable := { bars := [] }

/-- `CacasChannelStrategy.calculate_full` at the object level. -/
def Cacas.calculate_full_st (p : Cacas.Params) (s : List Cacas.CTable)
    (r : Nat) : List Cacas.CTable × Nat :=
  fullPipelineSt (Cacas.calculate_indicators p) (Cacas.generate_signals p)
    Cacas.emptyTable s r

theorem Val.vle_num_left {l : ℚ} {v : Val} (h : Val.vle (Val.num l) v = true) :
    ∃ s, v = Val.num s ∧ l ≤ s := by
  cases v with
  | nan => simp [Val.vle] at h
  | num s => exact ⟨s, rfl, by simpa [Val.vle] using h⟩

theorem Val.vge_num_pair {v w : Val} (h : Val.vge v w = true) :
    ∃ a b, v = Val.num a ∧ w = Val.num b ∧ b ≤ a := by
  cases v with
  | nan => simp [Val.vge] at h
  | num a =>
      cases w with
      | nan => simp [Val.vge] at h
      | num b => exact ⟨a, b, rfl, rfl, by simpa [Val.vge] using h⟩

theorem Val.truthy_of_pos {q : ℚ} (h : 0 < q) : (Val.num q).truthy = true := by
  simp [Val.truthy]
  exact ne_of_gt h

theorem Val.vle_nan_right (v : Val) : Val.vle v Val.nan = false := by
  cases v <;> rfl

theorem Val.vge_nan_right (v : Val) : Val.vge v Val.nan = false := by
  cases v <;> rfl

/-- C1: while the backtester is LONG, the exit conditions of a processed bar
are evaluated in the fixed order stop-then-target-then-signal: `Low ≤
stop_loss` exits at the stop with reason `stop_loss` even when the same bar's
High also reaches the target; otherwise `High ≥ target` exits at the target;
otherwise `signal == 0` exits at Close with reason `signal_exit`; otherwise
the position stays LONG and the state is unchanged.  Prices are positive per
the data model, which rules out the degenerate falsy exit price `0.0`. -/
theorem backtester_exit_priority
    (st : Backtest.SimState) (p : Backtest.Position) (row : Backtest.BBar)
    (l c : ℚ)
    (hpos : st.pos = some p)
    (hsig : row.signal.isna = false)
    (hlow : row.low = Val.num l) (hlpos : 0 < l)
    (hclose : row.close = Val.num c) (hcpos : 0 < c)
    (htgt : p.target ≠ Val.num 0) :
    (Val.vle row.low p.stop_loss = true →
      Backtest.simStep st row =
        { pos := none,
          trades := st.trades ++
            [Backtest.mkTrade p row.date p.stop_loss ("stop_loss")] }) ∧
    (Val.vle row.low p.stop_loss = false → Val.vge row.high p.target = true →
      Backtest.simStep st row =
        { pos := none,
          trades := st.trades ++
            [Backtest.mkTrade p row.date p.target ("target")] }) ∧
    (Val.vle row.low p.stop_loss = false → Val.vge row.high p.target = false →
      row.signal.veqn 0 = true →
      Backtest.simStep st row =
        { pos := none,
          trades := st.trades ++
            [Backtest.mkTrade p row.date row.close ("signal_exit")] }) ∧
    (Val.vle row.low p.stop_loss = false → Val.vge row.high p.target = false →
      row.signal.veqn 0 = false →
      Backtest.simStep st row = st) := by
  have hcl : row.close.isna = false := by rw [hclose]; rfl
  refine ⟨?_, ?_, ?_, ?_⟩
  · intro hstop
    obtain ⟨s, hs, hls⟩ := Val.vle_num_left (hlow ▸ hstop)
    have hst : p.stop_loss.truthy = true := by
      rw [hs]; exact Val.truthy_of_pos (lt_of_lt_of_le hlpos hls)
    simp [Backtest.simStep, hsig, hcl, hpos, hstop, hst]
  · intro hstop htar
    obtain ⟨a, b, _, hb, _⟩ := Val.vge_num_pair htar
    have hbt : p.target.truthy = true := by
      rw [hb]
      rw [hb] at htgt
      simp [Val.truthy]
      intro h0
      exact htgt (by rw [h0])
    simp [Backtest.simStep, hsig, hcl, hpos, hstop, htar, hbt]
  · intro hstop htar hsz
    have hct : row.close.truthy = true := by
      rw [hclose]; exact Val.truthy_of_pos hcpos
    simp [Backtest.simStep, hsig, hcl, hpos, hstop, htar, hsz, hct]
  · intro hstop htar hsz
    simp [Backtest.simStep, hsig, hcl, hpos, hstop, htar, hsz]

/-- Witness for C1 at a concrete bar breaching stop and target on the same
bar: entry 10, stop 2, target 50; the bar has Low 1 ≤ 2 and High 100 ≥ 50,
and the recorded exit is the stop. -/
theorem backtester_exit_priority_witness :
    Backtest.simStep ⟨some ⟨Val.num 10, 0, Val.num 2, Val.num 50⟩, []⟩
        ⟨1, Val.num 100, Val.num 1, Val.num 9, Val.num 1, none, none⟩ =
      ⟨none, [Backtest.mkTrade ⟨Val.num 10, 0, Val.num 2, Val.num 50⟩ 1
        (Val.num 2) ("stop_loss")]⟩ := by
  have h := (backtester_exit_priority
    ⟨some ⟨Val.num 10, 0, Val.num 2, Val.num 50⟩, []⟩
    ⟨Val.num 10, 0, Val.num 2, Val.num 50⟩
    ⟨1, Val.num 100, Val.num 1, Val.num 9, Val.num 1, none, none⟩
    1 9 rfl rfl rfl (by norm_num) rfl (by norm_num)
    (by simp)).1 (by norm_num [Val.vle])
  simpa using h

/-- A two-bar series whose entry bar carries a NaN `stop_loss` value but a
numeric `target` value: entry at 10 on bar 0, bar 1 trades up through the
target 11. -/
def c10rows : List Backtest.BBar :=
  [⟨0, Val.num 10, Val.num 10, Val.num 10, Val.num 1, some Val.nan, some (Val.num 11)⟩,
   ⟨1, Val.num 12, Val.num (99 / 10), Val.num 12, Val.num 1, some Val.nan, some (Val.num 11)⟩]

/-- C10 counterexample: a position whose captured `stop_loss` is NaN (both
rows carry `stop_loss = NaN`) closes with reason `target`, refuting the
claim's final clause that such a position can only close via `signal_exit`
or the `end_of_period` flush.  Only the NaN level's own comparison is
disabled; the other, numeric level still fires. -/
theorem backtester_nan_levels_cex :
    c10rows.map (fun r => r.stop_loss) = [some Val.nan, some Val.nan] ∧
    (Backtest.simulate_trades c10rows).map (fun t => t.exit_reason) =
      [("target")] := by
  constructor
  · rfl
  · norm_num [c10rows, Backtest.simulate_trades, Backtest.simStep,
      Backtest.initState, Backtest.mkTrade, Val.isna, Val.veqn, Val.vle,
      Val.vge, Val.truthy]

/-- C10 (amended): at the entry bar a present-but-NaN `stop_loss`/`target`
value is captured as the position's fixed level (the ±5%/+10% fallback
applies only when the column is absent from the row); every `Low ≤ stop` and
`High ≥ target` comparison against a NaN level is false, so a NaN level
disables its own exit branch; a position whose captured stop AND target are
both NaN can only close via `signal_exit` during replay, and the only other
close is the `end_of_period` flush. -/
theorem backtester_nan_levels
    (st : Backtest.SimState) (row : Backtest.BBar) (p : Backtest.Position) :
    (st.pos = none → row.signal.isna = false → row.close.isna = false →
      row.signal.veqn 1 = true →
      ((row.stop_loss = some Val.nan →
         ∃ q, (Backtest.simStep st row).pos = some q ∧ q.stop_loss = Val.nan) ∧
       (row.target = some Val.nan →
         ∃ q, (Backtest.simStep st row).pos = some q ∧ q.target = Val.nan) ∧
       (row.stop_loss = none →
         ∃ q, (Backtest.simStep st row).pos = some q ∧
           q.stop_loss = Val.vmul row.close (Val.num (95 / 100))))) ∧
    (p.stop_loss = Val.nan → Val.vle row.low p.stop_loss = false) ∧
    (p.target = Val.nan → Val.vge row.high p.target = false) ∧
    (st.pos = some p → p.stop_loss = Val.nan → p.target = Val.nan →
      Backtest.simStep st row = st ∨
      Backtest.simStep st row =
        { pos := none,
          trades := st.trades ++
            [Backtest.mkTrade p row.date row.close ("signal_exit")] }) ∧
    (∀ rows : List Backtest.BBar, ∀ t ∈ Backtest.simulate_trades rows,
      t ∈ (rows.foldl Backtest.simStep Backtest.initState).trades ∨
        t.exit_reason = ("end_of_period")) := by
  refine ⟨?_, ?_, ?_, ?_, ?_⟩
  · intro h0 hs hc h1
    have hstep : (Backtest.simStep st row).pos = some
        { entry_price := row.close
          entry_date := row.date
          stop_loss := row.stop_loss.getD (Val.vmul row.close (Val.num (95 / 100)))
          target := row.target.getD (Val.vmul row.close (Val.num (110 / 100))) } := by
      simp [Backtest.simStep, hs, hc, h0, h1]
    refine ⟨fun hsl => ⟨_, hstep, by rw [hsl]; rfl⟩,
            fun htg => ⟨_, hstep, by rw [htg]; rfl⟩,
            fun hsl => ⟨_, hstep, by rw [hsl]; rfl⟩⟩
  · intro h; rw [h]; exact Val.vle_nan_right _
  · intro h; rw [h]; exact Val.vge_nan_right _
  · intro hp hsl htg
    by_cases hna : (row.signal.isna || row.close.isna) = true
    · left; simp [Backtest.simStep, hna]
    · have h1 : Val.vle row.low p.stop_loss = false := by
        rw [hsl]; exact Val.vle_nan_right _
      have h2 : Val.vge row.high p.target = false := by
        rw [htg]; exact Val.vge_nan_right _
      by_cases hz : row.signal.veqn 0 = true
      · by_cases ht : row.close.truthy = true
        · right; simp [Backtest.simStep, hna, hp, h1, h2, hz, ht]
        · left; simp [Backtest.simStep, hna, hp, h1, h2, hz, ht]
      · left; simp [Backtest.simStep, hna, hp, h1, h2, hz]
  · intro rows t hmem
    unfold Backtest.simulate_trades at hmem
    cases hfp : (rows.foldl Backtest.simStep Backtest.initState).pos with
    | none =>
        simp only [hfp] at hmem
        exact Or.inl hmem
    | some p2 =>
        cases hl : rows.getLast? with
        | none =>
            simp only [hfp, hl] at hmem
            exact Or.inl hmem
        | some lr =>
            simp only [hfp, hl, List.mem_append, List.mem_singleton] at hmem
            cases hmem with
            | inl h => exact Or.inl h
            | inr h => exact Or.inr (by rw [h]; rfl)

/-- Witness for C10 (amended) at concrete inputs: entering on a bar whose
`stop_loss` cell is NaN captures NaN (no fallback), and a both-NaN-level
position steps without a stop/target exit. -/
theorem backtester_nan_levels_witness :
    (∃ q, (Backtest.simStep ⟨none, []⟩
        ⟨0, Val.num 10, Val.num 10, Val.num 10, Val.num 1, some Val.nan,
          some (Val.num 11)⟩).pos = some q ∧ q.stop_loss = Val.nan) ∧
    (Backtest.simStep ⟨some ⟨Val.num 10, 0, Val.nan, Val.nan⟩, []⟩
        ⟨1, Val.num 12, Val.num 9, Val.num 12, Val.num 1, none, none⟩ =
        ⟨some ⟨Val.num 10, 0, Val.nan, Val.nan⟩, []⟩ ∨
      Backtest.simStep ⟨some ⟨Val.num 10, 0, Val.nan, Val.nan⟩, []⟩
        ⟨1, Val.num 12, Val.num 9, Val.num 12, Val.num 1, none, none⟩ =
        { pos := none,
          trades := [] ++ [Backtest.mkTrade ⟨Val.num 10, 0, Val.nan, Val.nan⟩ 1
            (Val.num 12) ("signal_exit")] }) := by
  constructor
  · exact ((backtester_nan_levels ⟨none, []⟩
      ⟨0, Val.num 10, Val.num 10, Val.num 10, Val.num 1, some Val.nan,
        some (Val.num 11)⟩ ⟨Val.nan, 0, Val.nan, Val.nan⟩).1 rfl rfl rfl
      (by norm_num [Val.veqn])).1 rfl
  · exact (backtester_nan_levels ⟨some ⟨Val.num 10, 0, Val.nan, Val.nan⟩, []⟩
      ⟨1, Val.num 12, Val.num 9, Val.num 12, Val.num 1, none, none⟩
      ⟨Val.num 10, 0, Val.nan, Val.nan⟩).2.2.2.1 rfl rfl rfl

theorem MSS.mssSignals_drop (rows : List MSS.MRow) :
    ∀ i pr, rows[i]? = some pr →
      (MSS.mssSignals rows).drop (i + 1) =
        MSS.mssLoop (MSS.mssStructAt rows i) pr (rows.drop (i + 1)) := by
  intro i
  induction i with
  | zero =>
      intro pr hp
      cases rows with
      | nil => simp at hp
      | cons r rs =>
          simp at hp
          subst hp
          rfl
  | succ i ih =>
      intro pr2 hp2
      have hlt : i + 1 < rows.length := (List.getElem?_eq_some_iff.mp hp2).1
      have hlt0 : i < rows.length := Nat.lt_of_succ_lt hlt
      have hp1 : rows[i]? = some rows[i] := List.getElem?_eq_getElem hlt0
      have ihe := ih rows[i] hp1
      have hdrop : rows.drop (i + 1) = rows[i + 1] :: rows.drop (i + 2) :=
        List.drop_eq_getElem_cons hlt
      have hpr2 : rows[i + 1] = pr2 := by
        have := List.getElem?_eq_getElem hlt
        rw [this] at hp2
        exact Option.some.inj hp2
      rw [hdrop, hpr2] at ihe
      have hstruct : MSS.mssStructAt rows (i + 1) =
          (MSS.mssStep (MSS.mssStructAt rows i) pr2.close rows[i].lsh rows[i].lsl).1 := by
        rw [MSS.mssStructAt]
        rw [hp1, hp2]
      have : (MSS.mssSignals rows).drop (i + 2) =
          ((MSS.mssSignals rows).drop (i + 1)).drop 1 := by
        rw [List.drop_drop]
      rw [this, ihe]
      rw [MSS.mssLoop]
      rw [hstruct]
      rfl

/-- C2: in MSS `generate_signals`, every bar from index 1 onward is
classified by the three-branch transition on the running structure state
(which starts neutral): Close above the previous bar's `last_swing_high`
gives signal 1 tagged `MSS_BULL` when the structure was ≤ 0 and `BOS_BULL`
otherwise, setting the structure to 1; else Close below the previous bar's
`last_swing_low` gives signal 0 tagged `MSS_BEAR` when the structure was ≥ 0
and `BOS_BEAR` otherwise, setting the structure to −1; else the signal is 1
exactly when the structure is positive, no tag is emitted, and the structure
is unchanged. -/
theorem mss_state_machine (rows : List MSS.MRow) (i : Nat) (pr r : MSS.MRow)
    (hp : rows[i]? = some pr) (hr : rows[i + 1]? = some r) :
    MSS.mssStructAt rows 0 = 0 ∧
    (MSS.mssSignals rows)[i + 1]? = some (
      if Val.vgt (Val.num r.close) pr.lsh then
        (1, if MSS.mssStructAt rows i ≤ 0 then ("MSS_BULL") else ("BOS_BULL"))
      else if Val.vlt (Val.num r.close) pr.lsl then
        (0, if 0 ≤ MSS.mssStructAt rows i then ("MSS_BEAR") else ("BOS_BEAR"))
      else
        ((if 0 < MSS.mssStructAt rows i then 1 else 0), "")) ∧
    MSS.mssStructAt rows (i + 1) =
      (if Val.vgt (Val.num r.close) pr.lsh then 1
       else if Val.vlt (Val.num r.close) pr.lsl then -1
       else MSS.mssStructAt rows i) := by
  have hd := MSS.mssSignals_drop rows i pr hp
  have hlt : i + 1 < rows.length := (List.getElem?_eq_some_iff.mp hr).1
  have hdrop : rows.drop (i + 1) = rows[i + 1] :: rows.drop (i + 2) :=
    List.drop_eq_getElem_cons hlt
  have hre : rows[i + 1] = r := by
    have := List.getElem?_eq_getElem hlt
    rw [this] at hr
    exact Option.some.inj hr
  rw [hdrop, hre] at hd
  refine ⟨rfl, ?_, ?_⟩
  · have h0 : (MSS.mssSignals rows)[i + 1]? =
        ((MSS.mssSignals rows).drop (i + 1))[0]? := by
      rw [List.getElem?_drop]
    rw [h0, hd, MSS.mssLoop]
    simp only [List.getElem?_cons_zero]
    congr 1
    rw [MSS.mssStep]
    split_ifs <;> rfl
  · have hstruct : MSS.mssStructAt rows (i + 1) =
        (MSS.mssStep (MSS.mssStructAt rows i) r.close pr.lsh pr.lsl).1 := by
      rw [MSS.mssStructAt, hp, hr]
    rw [hstruct, MSS.mssStep]
    split_ifs <;> rfl

/-- Witness for C2: a two-row table whose second Close 13 breaks the previous
`last_swing_high` 12 from the neutral structure, yielding `(1, MSS_BULL)` and
structure 1. -/
theorem mss_state_machine_witness :
    (MSS.mssSignals [⟨10, Val.num 12, Val.num 8⟩, ⟨13, Val.num 12, Val.num 8⟩])[1]? =
      some (1, ("MSS_BULL")) ∧
    MSS.mssStructAt [⟨10, Val.num 12, Val.num 8⟩, ⟨13, Val.num 12, Val.num 8⟩] 1 = 1 := by
  have h := mss_state_machine
    [⟨10, Val.num 12, Val.num 8⟩, ⟨13, Val.num 12, Val.num 8⟩] 0
    ⟨10, Val.num 12, Val.num 8⟩ ⟨13, Val.num 12, Val.num 8⟩ rfl rfl
  constructor
  · rw [h.2.1]
    norm_num [Val.vgt, MSS.mssStructAt]
  · rw [h.2.2]
    norm_num [Val.vgt]

theorem Optimizer.cartProd_length {α : Type} (g : List (List α)) :
    (Optimizer.cartProd g).length = (g.map List.length).prod := by
  induction g with
  | nil => rfl
  | cons l ls ih =>
      simp only [Optimizer.cartProd, List.length_flatten, List.map_map,
        List.map_cons, List.prod_cons]
      have h : (List.length ∘ fun x => (Optimizer.cartProd ls).map (x :: ·))
          = fun _ : α => (Optimizer.cartProd ls).length := by
        funext x
        simp
      rw [h, List.map_const', List.sum_replicate, smul_eq_mul, ih]

theorem Optimizer.count_combinations_eq (g : List (List ℚ)) :
    Optimizer.count_combinations g = (g.map List.length).prod := by
  suffices h : ∀ a : Nat, g.foldl (fun total vs => total * vs.length) a =
      a * (g.map List.length).prod by
    simpa [Optimizer.count_combinations] using h 1
  induction g with
  | nil => intro a; simp
  | cons l ls ih =>
      intro a
      simp only [List.foldl_cons, List.map_cons, List.prod_cons]
      rw [ih]
      ring

theorem Optimizer.mem_cartProd {α : Type} (g : List (List α)) (c : List α) :
    c ∈ Optimizer.cartProd g ↔ List.Forall₂ (fun x vs => x ∈ vs) c g := by
  induction g generalizing c with
  | nil =>
      simp only [Optimizer.cartProd, List.mem_singleton, List.forall₂_nil_right_iff]
  | cons l ls ih =>
      simp only [Optimizer.cartProd, List.mem_flatten, List.mem_map,
        List.forall₂_cons_right_iff]
      constructor
      · rintro ⟨inner, ⟨x, hx, rfl⟩, hc⟩
        rcases List.mem_map.mp hc with ⟨c2, hc2, rfl⟩
        exact ⟨x, c2, hx, (ih c2).mp hc2, rfl⟩
      · rintro ⟨x, c2, hx, hc2, rfl⟩
        exact ⟨(Optimizer.cartProd ls).map (x :: ·), ⟨x, hx, rfl⟩,
          List.mem_map.mpr ⟨c2, (ih c2).mpr hc2, rfl⟩⟩

/-- C3: `optimize` evaluates the full Cartesian product of the grid (length
and membership characterisation), discards collected rows with fewer than 3
trades, sorts the survivors by the requested metric descending and returns
the first row's parameters; when no row survives the gate it returns the
empty best-parameters result together with the ungated rows. -/
theorem optimizer_gate_and_ranking (grid : List (List ℚ))
    (ev : List ℚ → Option Optimizer.OptRow) (metric : Optimizer.OptRow → ℚ) :
    (Optimizer.cartProd grid).length = Optimizer.count_combinations grid ∧
    (∀ c : List ℚ, c ∈ Optimizer.cartProd grid ↔
      List.Forall₂ (fun x vs => x ∈ vs) c grid) ∧
    (((Optimizer.cartProd grid).filterMap ev).filter Optimizer.enoughTrades = [] →
      (Optimizer.optimize grid ev metric).1 = none ∧
      (Optimizer.optimize grid ev metric).2 = (Optimizer.cartProd grid).filterMap ev) ∧
    (∀ gated, gated = ((Optimizer.cartProd grid).filterMap ev).filter
        Optimizer.enoughTrades → gated ≠ [] →
      (Optimizer.optimize grid ev metric).2.Perm gated ∧
      SortedDesc metric (Optimizer.optimize grid ev metric).2 ∧
      ∃ best, (Optimizer.optimize grid ev metric).2.head? = some best ∧
        (Optimizer.optimize grid ev metric).1 = some best.params ∧
        best ∈ gated ∧ ∀ r ∈ gated, metric r ≤ metric best) := by
  refine ⟨Optimizer.cartProd_length grid ▸ (Optimizer.count_combinations_eq grid).symm,
    fun c => Optimizer.mem_cartProd grid c, ?_, ?_⟩
  · intro hempty
    by_cases hres : (Optimizer.cartProd grid).filterMap ev = []
    · constructor <;> simp [Optimizer.optimize, hres]
    · have h1 : ((Optimizer.cartProd grid).filterMap ev).isEmpty = false := by
        simpa [List.isEmpty_iff] using hres
      constructor <;> simp [Optimizer.optimize, h1, hempty]
  · intro gated hg hne
    have hres : (Optimizer.cartProd grid).filterMap ev ≠ [] := by
      intro h0
      apply hne
      rw [hg, h0]
      rfl
    have h1 : ((Optimizer.cartProd grid).filterMap ev).isEmpty = false := by
      simpa [List.isEmpty_iff] using hres
    have h2 : (((Optimizer.cartProd grid).filterMap ev).filter
        Optimizer.enoughTrades).isEmpty = false := by
      rw [← hg]
      simpa [List.isEmpty_iff] using hne
    have hopt : Optimizer.optimize grid ev metric =
        ((sortDescBy metric gated).head?.map (·.params), sortDescBy metric gated) := by
      rw [hg]
      simp [Optimizer.optimize, h1, h2]
    obtain ⟨best, tail, htl⟩ : ∃ b t, sortDescBy metric gated = b :: t := by
      cases hsd : sortDescBy metric gated with
      | nil =>
          exfalso
          have hp := sortDescBy_perm metric gated
          rw [hsd] at hp
          exact hne hp.nil_eq.symm
      | cons b t => exact ⟨b, t, rfl⟩
    have hperm := sortDescBy_perm metric gated
    have hsorted := sortDescBy_sorted metric gated
    refine ⟨by rw [hopt]; exact hperm, by rw [hopt]; exact hsorted,
      best, ?_, ?_, ?_, ?_⟩
    · rw [hopt]; simp [htl]
    · rw [hopt]; simp [htl]
    · exact hperm.mem_iff.mp (htl ▸ List.mem_cons_self best tail)
    · intro r hr
      have hrm : r ∈ best :: tail := htl ▸ hperm.mem_iff.mpr hr
      rcases List.mem_cons.mp hrm with h | h
      · exact h ▸ le_refl _
      · have hpw : List.Pairwise (fun a b => metric b ≤ metric a) (best :: tail) := by
          rw [← htl]; exact hsorted
        exact (List.pairwise_cons.mp hpw).1 r h

/-- Concrete per-combination evaluator for exercising the optimizer. -/
def c3ev (c : List ℚ) : Option Optimizer.OptRow :=
  some ⟨c, false, 5, 50, c.sum, 0, 0⟩

/-- The gated rows the grid `[[1, 2]]` produces under `c3ev`. -/
def c3gated : List Optimizer.OptRow :=
  [⟨[1], false, 5, 50, 1, 0, 0⟩, ⟨[2], false, 5, 50, 2, 0, 0⟩]

/-- Witness for C3 on the grid `[[1, 2]]`: both combinations are collected,
both pass the gate, and the best row maximises `profit_factor`. -/
theorem optimizer_gate_and_ranking_witness :
    (Optimizer.optimize [[1, 2]] c3ev Optimizer.OptRow.profit_factor).2.Perm c3gated ∧
    SortedDesc Optimizer.OptRow.profit_factor
      (Optimizer.optimize [[1, 2]] c3ev Optimizer.OptRow.profit_factor).2 ∧
    ∃ best, (Optimizer.optimize [[1, 2]] c3ev
        Optimizer.OptRow.profit_factor).2.head? = some best ∧
      (Optimizer.optimize [[1, 2]] c3ev Optimizer.OptRow.profit_factor).1 =
        some best.params ∧
      best ∈ c3gated ∧
      ∀ r ∈ c3gated, r.profit_factor ≤ best.profit_factor :=
  (optimizer_gate_and_ranking [[1, 2]] c3ev Optimizer.OptRow.profit_factor).2.2.2
    c3gated
    (by norm_num [c3gated, c3ev, Optimizer.cartProd, Optimizer.enoughTrades,
      List.filterMap_cons, List.filter_cons])
    (by simp [c3gated])

/-- C4: after per-ticker collection, `scan` filters rows to
`total_trades >= 3 AND win_rate >= minWinRate AND profit_factor >=
minProfitFactor`; a non-empty filtered set is returned sorted descending by
the composite score `convergence*100 + profit_factor*10 + win_rate`; if the
filter eliminates every row, `scan` returns the full unfiltered result set,
one row per successfully scanned ticker. -/
theorem scanner_filter_and_fallback (fetched : List (Option Scanner.ScanRow))
    (minWR minPF : ℚ) :
    (∀ r : Scanner.ScanRow, Scanner.passes minWR minPF r = true ↔
      (3 ≤ r.total_trades ∧ minWR ≤ r.win_rate ∧ minPF ≤ r.profit_factor)) ∧
    (∀ filtered, filtered =
        (fetched.filterMap id).filter (Scanner.passes minWR minPF) →
      (filtered ≠ [] →
        (Scanner.scan fetched minWR minPF).Perm filtered ∧
        SortedDesc Scanner.scanScore (Scanner.scan fetched minWR minPF)) ∧
      (filtered = [] →
        Scanner.scan fetched minWR minPF = fetched.filterMap id)) := by
  constructor
  · intro r
    simp [Scanner.passes, and_assoc]
  · intro filtered hf
    constructor
    · intro hne
      have hres : fetched.filterMap id ≠ [] := by
        intro h0
        apply hne
        rw [hf, h0]
        rfl
      have h1 : (fetched.filterMap id).isEmpty = false := by
        simpa [List.isEmpty_iff] using hres
      have h2 : ((fetched.filterMap id).filter
          (Scanner.passes minWR minPF)).isEmpty = false := by
        rw [← hf]
        simpa [List.isEmpty_iff] using hne
      have hscan : Scanner.scan fetched minWR minPF =
          sortDescBy Scanner.scanScore filtered := by
        rw [hf]
        simp [Scanner.scan, h1, h2]
      rw [hscan]
      exact ⟨sortDescBy_perm _ _, sortDescBy_sorted _ _⟩
    · intro hemp
      by_cases hres : fetched.filterMap id = []
      · simp [Scanner.scan, hres]
      · have h1 : (fetched.filterMap id).isEmpty = false := by
          simpa [List.isEmpty_iff] using hres
        have h2 : ((fetched.filterMap id).filter
            (Scanner.passes minWR minPF)).isEmpty = true := by
          rw [← hf, hemp]
          rfl
        simp [Scanner.scan, h1, h2]

/-- Five collected tickers, none passing a 50% win-rate filter. -/
def c4fetched : List (Option Scanner.ScanRow) :=
  [some ⟨"A", false, 5, 10, 1, 0⟩, some ⟨"B", false, 6, 20, 1, 0⟩,
   some ⟨"C", true, 7, 30, 1, 0⟩, some ⟨"D", false, 8, 40, 1, 0⟩,
   some ⟨"E", false, 9, 45, 1, 0⟩]

/-- Witness for C4 (the spec's scanner-fallback scenario): with 5 tickers and
none passing the filters, `scan` returns all 5 unfiltered rows. -/
theorem scanner_filter_and_fallback_witness :
    Scanner.scan c4fetched 50 (3 / 2) =
      [⟨"A", false, 5, 10, 1, 0⟩, ⟨"B", false, 6, 20, 1, 0⟩,
       ⟨"C", true, 7, 30, 1, 0⟩, ⟨"D", false, 8, 40, 1, 0⟩,
       ⟨"E", false, 9, 45, 1, 0⟩] := by
  have h := ((scanner_filter_and_fallback c4fetched 50 (3 / 2)).2 []
    (by norm_num [c4fetched, Scanner.passes])).2 rfl
  rw [h]
  rfl

theorem MSS.detect_swing_high_entry (highs : List ℚ) (len i : Nat)
    (hi : i < highs.length) :
    (MSS.detect_swing_high highs len)[i]? = some (
      if len ≤ i ∧ i + len < highs.length then
        if (List.range len).all (fun j =>
              decide (highs.getD (i - (j + 1)) 0 < highs.getD i 0) &&
              decide (highs.getD (i + (j + 1)) 0 < highs.getD i 0))
        then some (highs.getD i 0) else none
      else none) := by
  rw [MSS.detect_swing_high, List.getElem?_map, List.getElem?_range hi]
  rfl

theorem MSS.detect_swing_low_entry (lows : List ℚ) (len i : Nat)
    (hi : i < lows.length) :
    (MSS.detect_swing_low lows len)[i]? = some (
      if len ≤ i ∧ i + len < lows.length then
        if (List.range len).all (fun j =>
              decide (lows.getD i 0 < lows.getD (i - (j + 1)) 0) &&
              decide (lows.getD i 0 < lows.getD (i + (j + 1)) 0))
        then some (lows.getD i 0) else none
      else none) := by
  rw [MSS.detect_swing_low, List.getElem?_map, List.getElem?_range hi]
  rfl

theorem MSS.window_all_iff (len : Nat) (P : Nat → Prop) [DecidablePred P] :
    ((List.range len).all (fun j => decide (P (j + 1))) = true) ↔
      (∀ j, 1 ≤ j → j ≤ len → P j) := by
  rw [List.all_eq_true]
  constructor
  · intro h j h1 h2
    have hm : j - 1 ∈ List.range len := List.mem_range.mpr (by omega)
    have := h (j - 1) hm
    rw [decide_eq_true_eq] at this
    have hj : j - 1 + 1 = j := by omega
    rwa [hj] at this
  · intro h x hx
    rw [decide_eq_true_eq]
    have hx2 : x < len := List.mem_range.mp hx
    exact h (x + 1) (by omega) (by omega)

/-- C5: a bar `i` with `swing_length ≤ i < length − swing_length` is marked a
swing high iff its High strictly exceeds every High within `swing_length`
positions before and after, and symmetrically for swing lows as strict
minima; bars in the first or last `swing_length` positions are never
assigned a swing value; both output columns keep the series length. -/
theorem mss_swing_detection (highs lows : List ℚ) (len i : Nat) :
    (MSS.detect_swing_high highs len).length = highs.length ∧
    (MSS.detect_swing_low lows len).length = lows.length ∧
    (i < highs.length →
      (((MSS.detect_swing_high highs len)[i]? = some (some (highs.getD i 0))) ↔
        (len ≤ i ∧ i + len < highs.length ∧
          ∀ j, 1 ≤ j → j ≤ len →
            highs.getD (i - j) 0 < highs.getD i 0 ∧
            highs.getD (i + j) 0 < highs.getD i 0)) ∧
      (¬ (len ≤ i ∧ i + len < highs.length) →
        (MSS.detect_swing_high highs len)[i]? = some none)) ∧
    (i < lows.length →
      (((MSS.detect_swing_low lows len)[i]? = some (some (lows.getD i 0))) ↔
        (len ≤ i ∧ i + len < lows.length ∧
          ∀ j, 1 ≤ j → j ≤ len →
            lows.getD i 0 < lows.getD (i - j) 0 ∧
            lows.getD i 0 < lows.getD (i + j) 0)) ∧
      (¬ (len ≤ i ∧ i + len < lows.length) →
        (MSS.detect_swing_low lows len)[i]? = some none)) := by
  refine ⟨by simp [MSS.detect_swing_high], by simp [MSS.detect_swing_low], ?_, ?_⟩
  · intro hi
    have he := MSS.detect_swing_high_entry highs len i hi
    have hall := MSS.window_all_iff len
      (fun j => highs.getD (i - j) 0 < highs.getD i 0 ∧
        highs.getD (i + j) 0 < highs.getD i 0)
    constructor
    · rw [he]
      by_cases hwin : len ≤ i ∧ i + len < highs.length
      · rw [if_pos hwin]
        by_cases hmax : ∀ j, 1 ≤ j → j ≤ len →
            highs.getD (i - j) 0 < highs.getD i 0 ∧
            highs.getD (i + j) 0 < highs.getD i 0
        · have hb : (List.range len).all (fun j =>
              decide (highs.getD (i - (j + 1)) 0 < highs.getD i 0) &&
              decide (highs.getD (i + (j + 1)) 0 < highs.getD i 0)) = true := by
            have := hall.mpr hmax
            simpa [Bool.decide_and] using this
          rw [if_pos hb]
          exact ⟨fun _ => ⟨hwin.1, hwin.2, hmax⟩, fun _ => rfl⟩
        · have hb : ¬ ((List.range len).all (fun j =>
              decide (highs.getD (i - (j + 1)) 0 < highs.getD i 0) &&
              decide (highs.getD (i + (j + 1)) 0 < highs.getD i 0)) = true) := by
            intro hcon
            apply hmax
            apply hall.mp
            simpa [Bool.decide_and] using hcon
          rw [if_neg hb]
          simp only [Option.some.injEq]
          exact ⟨fun h => absurd h (by simp), fun h => absurd h.2.2 hmax⟩
      · rw [if_neg hwin]
        simp only [Option.some.injEq]
        exact ⟨fun h => absurd h (by simp), fun h => absurd ⟨h.1, h.2.1⟩ hwin⟩
    · intro hwin
      rw [he, if_neg hwin]
  · intro hi
    have he := MSS.detect_swing_low_entry lows len i hi
    have hall := MSS.window_all_iff len
      (fun j => lows.getD i 0 < lows.getD (i - j) 0 ∧
        lows.getD i 0 < lows.getD (i + j) 0)
    constructor
    · rw [he]
      by_cases hwin : len ≤ i ∧ i + len < lows.length
      · rw [if_pos hwin]
        by_cases hmin : ∀ j, 1 ≤ j → j ≤ len →
            lows.getD i 0 < lows.getD (i - j) 0 ∧
            lows.getD i 0 < lows.getD (i + j) 0
        · have hb : (List.range len).all (fun j =>
              decide (lows.getD i 0 < lows.getD (i - (j + 1)) 0) &&
              decide (lows.getD i 0 < lows.getD (i + (j + 1)) 0)) = true := by
            have := hall.mpr hmin
            simpa [Bool.decide_and] using this
          rw [if_pos hb]
          exact ⟨fun _ => ⟨hwin.1, hwin.2, hmin⟩, fun _ => rfl⟩
        · have hb : ¬ ((List.range len).all (fun j =>
              decide (lows.getD i 0 < lows.getD (i - (j + 1)) 0) &&
              decide (lows.getD i 0 < lows.getD (i + (j + 1)) 0)) = true) := by
            intro hcon
            apply hmin
            apply hall.mp
            simpa [Bool.decide_and] using hcon
          rw [if_neg hb]
          simp only [Option.some.injEq]
          exact ⟨fun h => absurd h (by simp), fun h => absurd h.2.2 hmin⟩
      · rw [if_neg hwin]
        simp only [Option.some.injEq]
        exact ⟨fun h => absurd h (by simp), fun h => absurd ⟨h.1, h.2.1⟩ hwin⟩
    · intro hwin
      rw [he, if_neg hwin]

/-- Witness for C5: in `[1, 5, 2]` with `swing_length = 1`, bar 1 is a swing
high with value 5; in `[3, 1, 4]` bar 1 is a swing low with value 1; the
boundary bar 0 carries no swing value. -/
theorem mss_swing_detection_witness :
    (MSS.detect_swing_high [1, 5, 2] 1)[1]? = some (some ((5 : ℚ))) ∧
    (MSS.detect_swing_low [3, 1, 4] 1)[1]? = some (some ((1 : ℚ))) ∧
    (MSS.detect_swing_high [1, 5, 2] 1)[0]? = some none := by
  refine ⟨?_, ?_, ?_⟩
  · have h := ((mss_swing_detection [1, 5, 2] [3, 1, 4] 1 1).2.2.1
      (by norm_num)).1.mpr
      ⟨by norm_num, by norm_num, by
        intro j h1 h2
        have hj : j = 1 := le_antisymm h2 h1
        subst hj
        norm_num⟩
    simpa using h
  · have h := ((mss_swing_detection [1, 5, 2] [3, 1, 4] 1 1).2.2.2
      (by norm_num)).1.mpr
      ⟨by norm_num, by norm_num, by
        intro j h1 h2
        have hj : j = 1 := le_antisymm h2 h1
        subst hj
        norm_num⟩
    simpa using h
  · exact ((mss_swing_detection [1, 5, 2] [3, 1, 4] 1 0).2.2.1
      (by norm_num)).2 (by norm_num)

/-- C6: for all three strategy variants `check_convergence` never fails on
empty input: an empty table contributes signal 0/false and numeric info
fields 0.0, and the returned boolean is true iff the last row's signal
equals 1 in both tables simultaneously (pure AND); each checker reads only
the last row of each table. -/
theorem check_convergence_semantics :
    (∀ d w : List Cacas.SigRow,
      ((Cacas.check_convergence d w).1 = true ↔
        (∃ r, d.getLast? = some r ∧ Val.veqn r.signal 1 = true) ∧
        (∃ r, w.getLast? = some r ∧ Val.veqn r.signal 1 = true))) ∧
    (∀ d w r, d.getLast? = some r →
      Cacas.check_convergence d w = Cacas.check_convergence [r] w) ∧
    (∀ w : List Cacas.SigRow,
      (Cacas.check_convergence [] w).1 = false ∧
      (Cacas.check_convergence [] w).2.daily_signal = false ∧
      (Cacas.check_convergence [] w).2.daily_mid = Val.num 0 ∧
      (Cacas.check_convergence [] w).2.daily_ema = Val.num 0 ∧
      (Cacas.check_convergence [] w).2.stop_loss = Val.num 0 ∧
      (Cacas.check_convergence [] w).2.target = Val.num 0 ∧
      (Cacas.check_convergence [] w).2.atr = Val.num 0) ∧
    (∀ d : List Cacas.SigRow,
      (Cacas.check_convergence d []).1 = false ∧
      (Cacas.check_convergence d []).2.weekly_signal = false ∧
      (Cacas.check_convergence d []).2.weekly_mid = Val.num 0 ∧
      (Cacas.check_convergence d []).2.weekly_ema = Val.num 0) ∧
    (∀ d w : List MACross.SigRow,
      ((MACross.check_convergence d w).1 = true ↔
        (∃ r, d.getLast? = some r ∧ Val.veqn r.signal 1 = true) ∧
        (∃ r, w.getLast? = some r ∧ Val.veqn r.signal 1 = true))) ∧
    (∀ w : List MACross.SigRow,
      (MACross.check_convergence [] w).1 = false ∧
      (MACross.check_convergence [] w).2.daily_signal = false ∧
      (MACross.check_convergence [] w).2.daily_ema_fast = Val.num 0 ∧
      (MACross.check_convergence [] w).2.daily_ema_slow = Val.num 0 ∧
      (MACross.check_convergence [] w).2.daily_distance_pct = Val.num 0 ∧
      (MACross.check_convergence [] w).2.stop_loss = Val.num 0 ∧
      (MACross.check_convergence [] w).2.target = Val.num 0 ∧
      (MACross.check_convergence [] w).2.atr = Val.num 0) ∧
    (∀ d : List MACross.SigRow,
      (MACross.check_convergence d []).1 = false ∧
      (MACross.check_convergence d []).2.weekly_signal = false ∧
      (MACross.check_convergence d []).2.weekly_ema_fast = Val.num 0 ∧
      (MACross.check_convergence d []).2.weekly_ema_slow = Val.num 0 ∧
      (MACross.check_convergence d []).2.weekly_distance_pct = Val.num 0) ∧
    (∀ d w : List MSS.ConvRow,
      ((MSS.check_convergence d w).1 = true ↔
        (∃ r, d.getLast? = some r ∧ Val.veqn r.signal 1 = true) ∧
        (∃ r, w.getLast? = some r ∧ Val.veqn r.signal 1 = true))) ∧
    (∀ w : List MSS.ConvRow,
      (MSS.check_convergence [] w).1 = false ∧
      (MSS.check_convergence [] w).2.daily_signal = false ∧
      (MSS.check_convergence [] w).2.daily_swing_high = Val.num 0 ∧
      (MSS.check_convergence [] w).2.daily_swing_low = Val.num 0 ∧
      (MSS.check_convergence [] w).2.stop_loss = Val.num 0 ∧
      (MSS.check_convergence [] w).2.target = Val.num 0 ∧
      (MSS.check_convergence [] w).2.atr = Val.num 0 ∧
      (MSS.check_convergence [] w).2.entry_price = Val.num 0) ∧
    (∀ d : List MSS.ConvRow,
      (MSS.check_convergence d []).1 = false ∧
      (MSS.check_convergence d []).2.weekly_signal = false ∧
      (MSS.check_convergence d []).2.weekly_swing_high = Val.num 0 ∧
      (MSS.check_convergence d []).2.weekly_swing_low = Val.num 0) := by
  have hz : Val.veqn (Val.num 0) 1 = false := by norm_num [Val.veqn]
  refine ⟨?_, ?_, ?_, ?_, ?_, ?_, ?_, ?_, ?_, ?_⟩
  · intro d w
    cases hd : d.getLast? <;> cases hw : w.getLast? <;>
      simp [Cacas.check_convergence, hd, hw, Bool.and_eq_true, hz]
  · intro d w r h
    simp [Cacas.check_convergence, h]
  · intro w
    cases hw : w.getLast? <;>
      refine ⟨by simp [Cacas.check_convergence, hw, hz], rfl, rfl, rfl, rfl, rfl, rfl⟩
  · intro d
    cases hd : d.getLast? <;>
      refine ⟨by simp [Cacas.check_convergence, hd, hz], rfl, rfl, rfl⟩
  · intro d w
    cases hd : d.getLast? <;> cases hw : w.getLast? <;>
      simp [MACross.check_convergence, hd, hw, Bool.and_eq_true, hz]
  · intro w
    cases hw : w.getLast? <;>
      refine ⟨by simp [MACross.check_convergence, hw, hz], rfl, rfl, rfl, rfl, rfl, rfl, rfl⟩
  · intro d
    cases hd : d.getLast? <;>
      refine ⟨by simp [MACross.check_convergence, hd, hz], rfl, rfl, rfl, rfl⟩
  · intro d w
    cases hd : d.getLast? <;> cases hw : w.getLast? <;>
      simp [MSS.check_convergence, hd, hw, Bool.and_eq_true, hz]
  · intro w
    cases hw : w.getLast? <;>
      refine ⟨by simp [MSS.check_convergence, hw, hz], rfl, rfl, rfl, rfl, rfl, rfl, rfl⟩
  · intro d
    cases hd : d.getLast? <;>
      refine ⟨by simp [MSS.check_convergence, hd, hz], rfl, rfl, rfl⟩

/-- Witness for C6: the last-row conjunct applied at a concrete two-row
daily table — the checker gives the same result as on the last row alone. -/
theorem check_convergence_semantics_witness :
    Cacas.check_convergence
        [⟨Val.num 0, Val.nan, Val.nan, Val.nan, Val.nan, Val.nan⟩,
         ⟨Val.num 1, Val.num 5, Val.num 4, Val.num 3, Val.num 7, Val.num 1⟩]
        [⟨Val.num 1, Val.num 5, Val.num 4, Val.num 3, Val.num 7, Val.num 1⟩] =
      Cacas.check_convergence
        [⟨Val.num 1, Val.num 5, Val.num 4, Val.num 3, Val.num 7, Val.num 1⟩]
        [⟨Val.num 1, Val.num 5, Val.num 4, Val.num 3, Val.num 7, Val.num 1⟩] :=
  check_convergence_semantics.2.1
    [⟨Val.num 0, Val.nan, Val.nan, Val.nan, Val.nan, Val.nan⟩,
     ⟨Val.num 1, Val.num 5, Val.num 4, Val.num 3, Val.num 7, Val.num 1⟩]
    [⟨Val.num 1, Val.num 5, Val.num 4, Val.num 3, Val.num 7, Val.num 1⟩]
    ⟨Val.num 1, Val.num 5, Val.num 4, Val.num 3, Val.num 7, Val.num 1⟩ rfl

theorem trAux_length (bs : List Bar0) : ∀ prev, (trAux prev bs).length = bs.length := by
  induction bs with
  | nil => intro prev; rfl
  | cons b bs ih => intro prev; simp [trAux, ih]

theorem trueRangeList_length (bars : List Bar0) :
    (trueRangeList bars).length = bars.length := by
  cases bars with
  | nil => rfl
  | cons b bs => simp [trueRangeList, trAux_length]

theorem trAux_nonneg (bs : List Bar0) :
    ∀ prev, ∀ x ∈ trAux prev bs, 0 ≤ x := by
  induction bs with
  | nil => intro prev x hx; simp [trAux] at hx
  | cons b bs ih =>
      intro prev x hx
      simp only [trAux, List.mem_cons] at hx
      rcases hx with h | h
      · subst h
        calc (0 : ℚ) ≤ |b.high - prev.close| := abs_nonneg _
          _ ≤ max |b.high - prev.close| |b.low - prev.close| := le_max_left _ _
          _ ≤ max (b.high - b.low) (max |b.high - prev.close| |b.low - prev.close|) :=
            le_max_right _ _
      · exact ih b x h

theorem trueRange_nonneg (bars : List Bar0) (hlh : ∀ b ∈ bars, b.low ≤ b.high) :
    ∀ x ∈ trueRangeList bars, 0 ≤ x := by
  cases bars with
  | nil => intro x hx; simp [trueRangeList] at hx
  | cons b bs =>
      intro x hx
      simp only [trueRangeList, List.mem_cons] at hx
      rcases hx with h | h
      · subst h
        have := hlh b (List.mem_cons_self b bs)
        linarith
      · exact trAux_nonneg bs b x h

theorem rollingMeanQ_entry (n : Nat) (xs : List ℚ) (i : Nat) (hi : i < xs.length) :
    (rollingMeanQ n xs)[i]? = some (
      if n ≤ i + 1 ∧ 0 < n then
        Val.num (((xs.drop (i + 1 - n)).take n).sum / n)
      else Val.nan) := by
  rw [rollingMeanQ, List.getElem?_map, List.getElem?_range hi]
  rfl

/-- Any numeric cell of the shared ATR column is a mean of true ranges and
hence non-negative, the stop/target cells are exactly
`Close ∓ ATR·multipliers`, the entry Close lies weakly between them, their
difference is `ATR · stop_multiplier · (1 + target_multiplier) ≥ 0`, and the
gap is strict whenever the ATR is positive. -/
theorem risk_cols (bars : List Bar0) (hlh : ∀ b ∈ bars, b.low ≤ b.high)
    (n : Nat) (sm tm : ℚ) (hsm : 0 < sm) (htm : 0 < tm) (i : Nat) (a c : ℚ)
    (ha : (atrList n bars)[i]? = some (Val.num a))
    (hc : (bars.map (·.close))[i]? = some c) :
    0 ≤ a ∧
    (stopLossCol sm bars (atrList n bars))[i]? = some (Val.num (c - a * sm)) ∧
    (targetCol sm tm bars (atrList n bars))[i]? = some (Val.num (c + a * (sm * tm))) ∧
    c - a * sm ≤ c ∧ c ≤ c + a * (sm * tm) ∧
    (c + a * (sm * tm)) - (c - a * sm) = a * (sm * (1 + tm)) ∧
    (0 < a → c - a * sm < c + a * (sm * tm)) := by
  have hi : i < bars.length := by
    have h := List.getElem?_eq_some_iff.mp hc
    simpa using h.1
  have hitr : i < (trueRangeList bars).length := by
    rw [trueRangeList_length]; exact hi
  have hnn : 0 ≤ a := by
    rw [atrList, rollingMeanQ_entry n _ i hitr] at ha
    by_cases hcond : n ≤ i + 1 ∧ 0 < n
    · rw [if_pos hcond] at ha
      have haeq : (((trueRangeList bars).drop (i + 1 - n)).take n).sum / (n : ℚ) = a := by
        have h1 := Option.some.inj ha
        exact Val.num.inj h1
      rw [← haeq]
      apply div_nonneg
      · apply List.sum_nonneg
        intro x hx
        exact trueRange_nonneg bars hlh x
          (List.drop_subset _ _ (List.take_subset _ _ hx))
      · exact Nat.cast_nonneg n
    · rw [if_neg hcond] at ha
      simp at ha
  have h1 : 0 ≤ a * sm := mul_nonneg hnn hsm.le
  have h2 : 0 ≤ a * (sm * tm) := mul_nonneg hnn (mul_nonneg hsm.le htm.le)
  refine ⟨hnn, ?_, ?_, by linarith, by linarith, by ring, ?_⟩
  · rw [stopLossCol, List.getElem?_zipWith, hc, ha]
    rfl
  · rw [targetCol, List.getElem?_zipWith, hc, ha]
    rfl
  · intro hapos
    have h3 : 0 < a * sm := mul_pos hapos hsm
    linarith

theorem mem_zipWith_cases {α β γ : Type} (f : α → β → γ) :
    ∀ (l1 : List α) (l2 : List β), ∀ x ∈ List.zipWith f l1 l2, ∃ a b, x = f a b := by
  intro l1
  induction l1 with
  | nil => intro l2 x hx; simp at hx
  | cons a l1 ih =>
      intro l2 x hx
      cases l2 with
      | nil => simp at hx
      | cons b l2 =>
          simp only [List.zipWith, List.mem_cons] at hx
          rcases hx with h | h
          · exact ⟨a, b, h⟩
          · exact ih l2 x h

theorem MSS.mssLoop_signal_cases (rs : List MSS.MRow) :
    ∀ (prev : Int) (pr : MSS.MRow), ∀ x ∈ MSS.mssLoop prev pr rs,
      x.1 = 0 ∨ x.1 = 1 := by
  induction rs with
  | nil => intro prev pr x hx; simp [MSS.mssLoop] at hx
  | cons r rs ih =>
      intro prev pr x hx
      simp only [MSS.mssLoop, List.mem_cons] at hx
      rcases hx with h | h
      · subst h
        rw [MSS.mssStep]
        split_ifs <;> simp
      · exact ih _ _ x h

theorem MSS.mssSignals_signal_cases (rows : List MSS.MRow) :
    ∀ x ∈ MSS.mssSignals rows, x.1 = 0 ∨ x.1 = 1 := by
  cases rows with
  | nil => intro x hx; simp [MSS.mssSignals] at hx
  | cons r rs =>
      intro x hx
      simp only [MSS.mssSignals, List.mem_cons] at hx
      rcases hx with h | h
      · subst h; left; rfl
      · exact MSS.mssLoop_signal_cases rs 0 r x h

/-- C7 (amended): for all three variants every `signal` cell is 0 or 1 (the
column is integer-valued, never NaN), and on every row whose ATR cell is
numeric the stop and target cells are the numeric values
`Close − ATR·stop_multiplier` and `Close + ATR·stop_multiplier·target_multiplier`
with the entry Close lying weakly between them and
`target − stop_loss = ATR·stop_multiplier·(1+target_multiplier) ≥ 0`,
strictly positive whenever the ATR is positive.  (The original claim's
strict `target − stop_loss > 0` fails when the ATR is 0, e.g. on a constant
series — see the counterexample.) -/
theorem strategy_signal_and_risk (bars : List Bar0)
    (hlh : ∀ b ∈ bars, b.low ≤ b.high)
    (pC : Cacas.Params) (pM : MACross.Params) (pS : MSS.Params)
    (hsmC : 0 < pC.stop_multiplier) (htmC : 0 < pC.target_multiplier)
    (hsmM : 0 < pM.stop_multiplier) (htmM : 0 < pM.target_multiplier)
    (hsmS : 0 < pS.stop_multiplier) (htmS : 0 < pS.target_multiplier) :
    (∀ s ∈ (Cacas.calculate_full pC { bars := bars }).signal, s = 0 ∨ s = 1) ∧
    (∀ s ∈ (MACross.calculate_full pM { bars := bars }).signal, s = 0 ∨ s = 1) ∧
    (∀ s ∈ (MSS.calculate_full pS { bars := bars }).signal, s = 0 ∨ s = 1) ∧
    (∀ (i : Nat) (a c : ℚ),
      ((Cacas.calculate_full pC { bars := bars }).atr)[i]? = some (Val.num a) →
      (bars.map (·.close))[i]? = some c →
      0 ≤ a ∧
      ((Cacas.calculate_full pC { bars := bars }).stop_loss)[i]? =
        some (Val.num (c - a * pC.stop_multiplier)) ∧
      ((Cacas.calculate_full pC { bars := bars }).target)[i]? =
        some (Val.num (c + a * (pC.stop_multiplier * pC.target_multiplier))) ∧
      c - a * pC.stop_multiplier ≤ c ∧
      c ≤ c + a * (pC.stop_multiplier * pC.target_multiplier) ∧
      (c + a * (pC.stop_multiplier * pC.target_multiplier)) -
          (c - a * pC.stop_multiplier) =
        a * (pC.stop_multiplier * (1 + pC.target_multiplier)) ∧
      (0 < a → c - a * pC.stop_multiplier <
        c + a * (pC.stop_multiplier * pC.target_multiplier))) ∧
    (∀ (i : Nat) (a c : ℚ),
      ((MACross.calculate_full pM { bars := bars }).atr)[i]? = some (Val.num a) →
      (bars.map (·.close))[i]? = some c →
      0 ≤ a ∧
      ((MACross.calculate_full pM { bars := bars }).stop_loss)[i]? =
        some (Val.num (c - a * pM.stop_multiplier)) ∧
      ((MACross.calculate_full pM { bars := bars }).target)[i]? =
        some (Val.num (c + a * (pM.stop_multiplier * pM.target_multiplier))) ∧
      c - a * pM.stop_multiplier ≤ c ∧
      c ≤ c + a * (pM.stop_multiplier * pM.target_multiplier) ∧
      (0 < a → c - a * pM.stop_multiplier <
        c + a * (pM.stop_multiplier * pM.target_multiplier))) ∧
    (∀ (i : Nat) (a c : ℚ),
      ((MSS.calculate_full pS { bars := bars }).atr)[i]? = some (Val.num a) →
      (bars.map (·.close))[i]? = some c →
      0 ≤ a ∧
      ((MSS.calculate_full pS { bars := bars }).stop_loss)[i]? =
        some (Val.num (c - a * pS.stop_multiplier)) ∧
      ((MSS.calculate_full pS { bars := bars }).target)[i]? =
        some (Val.num (c + a * (pS.stop_multiplier * pS.target_multiplier))) ∧
      c - a * pS.stop_multiplier ≤ c ∧
      c ≤ c + a * (pS.stop_multiplier * pS.target_multiplier) ∧
      (0 < a → c - a * pS.stop_multiplier <
        c + a * (pS.stop_multiplier * pS.target_multiplier))) := by
  have hceq : (Cacas.calculate_full pC { bars := bars }).atr =
      atrList pC.atr_period bars := by
    simp [Cacas.calculate_full, Cacas.generate_signals, Cacas.calculate_indicators]
  have hcstop : (Cacas.calculate_full pC { bars := bars }).stop_loss =
      stopLossCol pC.stop_multiplier bars (atrList pC.atr_period bars) := by
    simp [Cacas.calculate_full, Cacas.generate_signals, Cacas.calculate_indicators]
  have hctar : (Cacas.calculate_full pC { bars := bars }).target =
      targetCol pC.stop_multiplier pC.target_multiplier bars
        (atrList pC.atr_period bars) := by
    simp [Cacas.calculate_full, Cacas.generate_signals, Cacas.calculate_indicators]
  have hmeq : (MACross.calculate_full pM { bars := bars }).atr =
      atrList pM.atr_period bars := by
    simp [MACross.calculate_full, MACross.generate_signals, MACross.calculate_indicators]
  have hmstop : (MACross.calculate_full pM { bars := bars }).stop_loss =
      stopLossCol pM.stop_multiplier bars (atrList pM.atr_period bars) := by
    simp [MACross.calculate_full, MACross.generate_signals, MACross.calculate_indicators]
  have hmtar : (MACross.calculate_full pM { bars := bars }).target =
      targetCol pM.stop_multiplier pM.target_multiplier bars
        (atrList pM.atr_period bars) := by
    simp [MACross.calculate_full, MACross.generate_signals, MACross.calculate_indicators]
  have hseq : (MSS.calculate_full pS { bars := bars }).atr =
      atrList pS.atr_period bars := by
    simp [MSS.calculate_full, MSS.generate_signals, MSS.calculate_indicators]
  have hsstop : (MSS.calculate_full pS { bars := bars }).stop_loss =
      stopLossCol pS.stop_multiplier bars (atrList pS.atr_period bars) := by
    simp [MSS.calculate_full, MSS.generate_signals, MSS.calculate_indicators]
  have hstar : (MSS.calculate_full pS { bars := bars }).target =
      targetCol pS.stop_multiplier pS.target_multiplier bars
        (atrList pS.atr_period bars) := by
    simp [MSS.calculate_full, MSS.generate_signals, MSS.calculate_indicators]
  refine ⟨?_, ?_, ?_, ?_, ?_, ?_⟩
  · intro s hs
    have hsig : (Cacas.calculate_full pC { bars := bars }).signal =
        List.zipWith (fun m e => if Val.vgt m (Val.num e) then 1 else 0)
          (Cacas.calculate_indicators pC { bars := bars }).cacas_mid
          (Cacas.calculate_indicators pC { bars := bars }).ema := by
      simp [Cacas.calculate_full, Cacas.generate_signals]
    rw [hsig] at hs
    obtain ⟨m, e, rfl⟩ := mem_zipWith_cases _ _ _ s hs
    split_ifs <;> simp
  · intro s hs
    have hsig : (MACross.calculate_full pM { bars := bars }).signal =
        List.zipWith (fun f s => if s < f then 1 else 0)
          (MACross.calculate_indicators pM { bars := bars }).ema_fast
          (MACross.calculate_indicators pM { bars := bars }).ema_slow := by
      simp [MACross.calculate_full, MACross.generate_signals]
    rw [hsig] at hs
    obtain ⟨m, e, rfl⟩ := mem_zipWith_cases _ _ _ s hs
    split_ifs <;> simp
  · intro s hs
    have hsig : (MSS.calculate_full pS { bars := bars }).signal =
        (MSS.mssSignals (MSS.mssRows (MSS.calculate_indicators pS { bars := bars }))).map
          (·.1) := by
      simp [MSS.calculate_full, MSS.generate_signals]
    rw [hsig] at hs
    obtain ⟨x, hx, rfl⟩ := List.mem_map.mp hs
    exact MSS.mssSignals_signal_cases _ x hx
  · intro i a c ha hc
    rw [hceq] at ha
    have h := risk_cols bars hlh pC.atr_period pC.stop_multiplier
      pC.target_multiplier hsmC htmC i a c ha hc
    rw [hcstop, hctar]
    exact ⟨h.1, h.2.1, h.2.2.1, h.2.2.2.1, h.2.2.2.2.1, h.2.2.2.2.2.1, h.2.2.2.2.2.2⟩
  · intro i a c ha hc
    rw [hmeq] at ha
    have h := risk_cols bars hlh pM.atr_period pM.stop_multiplier
      pM.target_multiplier hsmM htmM i a c ha hc
    rw [hmstop, hmtar]
    exact ⟨h.1, h.2.1, h.2.2.1, h.2.2.2.1, h.2.2.2.2.1, h.2.2.2.2.2.2⟩
  · intro i a c ha hc
    rw [hseq] at ha
    have h := risk_cols bars hlh pS.atr_period pS.stop_multiplier
      pS.target_multiplier hsmS htmS i a c ha hc
    rw [hsstop, hstar]
    exact ⟨h.1, h.2.1, h.2.2.1, h.2.2.2.1, h.2.2.2.2.1, h.2.2.2.2.2.2⟩

/-- Fourteen identical bars: High = Low = Close = 1 on every bar, a legal
OHLCV series with zero volatility. -/
def bars14 : List Bar0 := List.replicate 14 ⟨1, 1, 1⟩

/-- C7 counterexample: on the constant series, with the default Cacas
parameters, row 13 has a fully-defined ATR of 0 and stop = target = Close =
1, so `target − stop_loss = 0`, refuting the claimed strict
`target − stop_loss > 0` on fully-defined rows. -/
theorem strategy_signal_and_risk_cex :
    ((Cacas.calculate_full {} { bars := bars14 }).atr)[13]? = some (Val.num 0) ∧
    ((Cacas.calculate_full {} { bars := bars14 }).stop_loss)[13]? = some (Val.num 1) ∧
    ((Cacas.calculate_full {} { bars := bars14 }).target)[13]? = some (Val.num 1) ∧
    Val.vsub (((Cacas.calculate_full {} { bars := bars14 }).target).getD 13 Val.nan)
      (((Cacas.calculate_full {} { bars := bars14 }).stop_loss).getD 13 Val.nan) =
      Val.num 0 := by
  have htr : trueRangeList bars14 = List.replicate 14 0 := by
    norm_num [bars14, trueRangeList, trAux, List.replicate]
  have hatr : (atrList 14 bars14)[13]? = some (Val.num 0) := by
    rw [atrList, htr, rollingMeanQ_entry 14 _ 13 (by norm_num)]
    norm_num [List.take_replicate, List.sum_replicate]
  have hclose : (bars14.map (·.close))[13]? = some 1 := by
    norm_num [bars14, List.map_replicate, List.getElem?_replicate]
  have hceq : (Cacas.calculate_full ({} : Cacas.Params) { bars := bars14 }).atr =
      atrList 14 bars14 := by
    simp [Cacas.calculate_full, Cacas.generate_signals, Cacas.calculate_indicators,
      atrList]
  have hcstop : (Cacas.calculate_full ({} : Cacas.Params) { bars := bars14 }).stop_loss =
      stopLossCol (3 / 2) bars14 (atrList 14 bars14) := by
    simp [Cacas.calculate_full, Cacas.generate_signals, Cacas.calculate_indicators,
      atrList]
  have hctar : (Cacas.calculate_full ({} : Cacas.Params) { bars := bars14 }).target =
      targetCol (3 / 2) 2 bars14 (atrList 14 bars14) := by
    simp [Cacas.calculate_full, Cacas.generate_signals, Cacas.calculate_indicators,
      atrList]
  have hstop : (stopLossCol (3 / 2) bars14 (atrList 14 bars14))[13]? =
      some (Val.num 1) := by
    rw [stopLossCol, List.getElem?_zipWith, hclose, hatr]
    norm_num [Val.vsub, Val.vmul]
  have htar : (targetCol (3 / 2) 2 bars14 (atrList 14 bars14))[13]? =
      some (Val.num 1) := by
    rw [targetCol, List.getElem?_zipWith, hclose, hatr]
    norm_num [Val.vadd, Val.vmul]
  refine ⟨by rw [hceq]; exact hatr, by rw [hcstop]; exact hstop,
    by rw [hctar]; exact htar, ?_⟩
  rw [hcstop, hctar]
  rw [List.getD_eq_getElem?_getD, List.getD_eq_getElem?_getD, hstop, htar]
  norm_num [Val.vsub]

/-- A short rising series with per-bar Low ≤ High. -/
def c7bars : List Bar0 := [⟨2, 1, 1⟩, ⟨3, 1, 2⟩, ⟨4, 2, 3⟩]

/-- Witness for C7 (amended) at a concrete input: with `atr_period = 2`
(other parameters default), row 1 of the rising series has ATR 3/2 > 0 and a
strictly positive stop-to-target gap around the entry Close 2. -/
theorem strategy_signal_and_risk_witness :
    0 ≤ (3 / 2 : ℚ) ∧
    ((Cacas.calculate_full { atr_period := 2 } { bars := c7bars }).stop_loss)[1]? =
      some (Val.num (2 - 3 / 2 * (3 / 2))) ∧
    ((Cacas.calculate_full { atr_period := 2 } { bars := c7bars }).target)[1]? =
      some (Val.num (2 + 3 / 2 * (3 / 2 * 2))) ∧
    ((2 : ℚ) - 3 / 2 * (3 / 2) < 2 + 3 / 2 * (3 / 2 * 2)) := by
  have hatr : ((Cacas.calculate_full ({ atr_period := 2 } : Cacas.Params)
      { bars := c7bars }).atr)[1]? = some (Val.num (3 / 2)) := by
    have h : (Cacas.calculate_full ({ atr_period := 2 } : Cacas.Params)
        { bars := c7bars }).atr = atrList 2 c7bars := by
      simp [Cacas.calculate_full, Cacas.generate_signals, Cacas.calculate_indicators,
        atrList]
    rw [h]
    have htr : trueRangeList c7bars = [1, 2, 2] := by
      norm_num [c7bars, trueRangeList, trAux]
    rw [atrList, htr, rollingMeanQ_entry 2 _ 1 (by norm_num)]
    norm_num
  have h := strategy_signal_and_risk c7bars
    (by norm_num [c7bars]) { atr_period := 2 } {} {}
    (by norm_num) (by norm_num) (by norm_num) (by norm_num) (by norm_num)
    (by norm_num)
  have h2 := h.2.2.2.1 1 (3 / 2) 2 hatr (by norm_num [c7bars])
  exact ⟨h2.1, h2.2.1, h2.2.2.1, h2.2.2.2.2.2.2 (by norm_num)⟩

/-- One copy-then-annotate stage leaves every pre-existing table object in
the store untouched, returns a fresh reference (`s.length`), and stores the
transformed copy there. -/
theorem stageSt_frame {α : Type} (f : α → α) (dflt : α) (s : List α) (r : Nat) :
    (∀ i, i < s.length → ((stageSt f dflt s r).1)[i]? = s[i]?) ∧
    (stageSt f dflt s r).2 = s.length ∧
    ((stageSt f dflt s r).1)[s.length]? = some (f (s.getD r dflt)) ∧
    (stageSt f dflt s r).1.length = s.length + 1 := by
  unfold stageSt
  refine ⟨?_, rfl, ?_, by simp⟩
  · intro i hi
    rw [List.getElem?_set_ne (by omega), List.getElem?_append_left hi]
  · rw [List.getElem?_set_self (by simp)]

/-- The two-stage pipeline at the object level: the caller's table reference
is untouched, the returned reference is new, and it holds the functional
composition of the two stages applied to the input table. -/
theorem fullPipelineSt_frame {α : Type} (fInd fSig : α → α) (dflt : α)
    (s : List α) (r : Nat) (h : r < s.length) :
    ((fullPipelineSt fInd fSig dflt s r).1)[r]? = s[r]? ∧
    (fullPipelineSt fInd fSig dflt s r).2 ≠ r ∧
    ((fullPipelineSt fInd fSig dflt s r).1)[(fullPipelineSt fInd fSig dflt s r).2]? =
      some (fSig (fInd (s.getD r dflt))) := by
  have h1 := stageSt_frame fInd dflt s r
  have hlen1 := h1.2.2.2
  have hr1 := h1.2.1
  have h2 := stageSt_frame fSig dflt (stageSt fInd dflt s r).1 (stageSt fInd dflt s r).2
  have hpipe : fullPipelineSt fInd fSig dflt s r =
      stageSt fSig dflt (stageSt fInd dflt s r).1 (stageSt fInd dflt s r).2 := rfl
  refine ⟨?_, ?_, ?_⟩
  · rw [hpipe]
    rw [h2.1 r (by omega), h1.1 r h]
  · rw [hpipe, h2.2.1, hlen1]
    omega
  · rw [hpipe, h2.2.1, hlen1]
    have hget : (stageSt fInd dflt s r).1.getD (stageSt fInd dflt s r).2 dflt =
        fInd (s.getD r dflt) := by
      rw [List.getD_eq_getElem?_getD, hr1, h1.2.2.1]
      rfl
    have := h2.2.2.1
    rw [hget, hlen1, hr1] at this
    exact this

/-- The empty MA-Cross table object. -/
def MACross.emptyTable : MACross.MTable := { bars := [] }

/-- `MovingAverageCrossStrategy.calculate_full` at the object level. -/
def MACross.calculate_full_st (p : MACross.Params) (s : List MACross.MTable)
    (r : Nat) : List MACross.MTable × Nat :=
  fullPipelineSt (MACross.calculate_indicators p) (MACross.generate_signals p)
    MACross.emptyTable s r

/-- The empty MSS table object. -/
def MSS.emptyTable : MSS.MSSTable := { bars := [] }

/-- `MSSStrategy.calculate_full` at the object level. -/
def MSS.calculate_full_st (p : MSS.Params) (s : List MSS.MSSTable)
    (r : Nat) : List MSS.MSSTable × Nat :=
  fullPipelineSt (MSS.calculate_indicators p) (MSS.generate_signals p)
    MSS.emptyTable s r

/-- C8: each pipeline stage copies before annotating (`df = df.copy()` at
the top of every `calculate_indicators`/`generate_signals`), so
`calculate_full` leaves the caller's table object unchanged in the store,
returns a fresh object, and that object holds `generate_signals ∘
calculate_indicators` of the input — stated generically over the stage
functions and instantiated at all three strategy pipelines. -/
theorem calculate_full_no_mutation
    {α : Type} (fInd fSig : α → α) (dflt : α) (s0 : List α) (r0 : Nat)
    (h0 : r0 < s0.length)
    (pC : Cacas.Params) (sC : List Cacas.CTable) (rC : Nat) (hC : rC < sC.length)
    (pM : MACross.Params) (sM : List MACross.MTable) (rM : Nat)
    (hM : rM < sM.length)
    (pS : MSS.Params) (sS : List MSS.MSSTable) (rS : Nat) (hS : rS < sS.length) :
    (((fullPipelineSt fInd fSig dflt s0 r0).1)[r0]? = s0[r0]? ∧
      (fullPipelineSt fInd fSig dflt s0 r0).2 ≠ r0 ∧
      ((fullPipelineSt fInd fSig dflt s0 r0).1)[(fullPipelineSt fInd fSig dflt s0 r0).2]? =
        some (fSig (fInd (s0.getD r0 dflt)))) ∧
    (((Cacas.calculate_full_st pC sC rC).1)[rC]? = sC[rC]? ∧
      (Cacas.calculate_full_st pC sC rC).2 ≠ rC ∧
      ((Cacas.calculate_full_st pC sC rC).1)[(Cacas.calculate_full_st pC sC rC).2]? =
        some (Cacas.calculate_full pC (sC.getD rC Cacas.emptyTable))) ∧
    (((MACross.calculate_full_st pM sM rM).1)[rM]? = sM[rM]? ∧
      (MACross.calculate_full_st pM sM rM).2 ≠ rM ∧
      ((MACross.calculate_full_st pM sM rM).1)[(MACross.calculate_full_st pM sM rM).2]? =
        some (MACross.calculate_full pM (sM.getD rM MACross.emptyTable))) ∧
    (((MSS.calculate_full_st pS sS rS).1)[rS]? = sS[rS]? ∧
      (MSS.calculate_full_st pS sS rS).2 ≠ rS ∧
      ((MSS.calculate_full_st pS sS rS).1)[(MSS.calculate_full_st pS sS rS).2]? =
        some (MSS.calculate_full pS (sS.getD rS MSS.emptyTable))) := by
  exact ⟨fullPipelineSt_frame fInd fSig dflt s0 r0 h0,
    fullPipelineSt_frame _ _ _ sC rC hC,
    fullPipelineSt_frame _ _ _ sM rM hM,
    fullPipelineSt_frame _ _ _ sS rS hS⟩

/-- Witness for C8: a one-table store holding a one-bar series; the Cacas
pipeline leaves slot 0 untouched and a generic pipeline over `Nat` behaves
the same way. -/
theorem calculate_full_no_mutation_witness :
    ((fullPipelineSt (· + 1) (· * 2) 0 [5] 0).1)[0]? = some 5 ∧
    ((Cacas.calculate_full_st {} [{ bars := [⟨2, 1, 1⟩] }] 0).1)[0]? =
      some { bars := [⟨2, 1, 1⟩] } ∧
    (Cacas.calculate_full_st {} [{ bars := [⟨2, 1, 1⟩] }] 0).2 ≠ 0 := by
  have h := calculate_full_no_mutation (· + 1) (· * 2) 0 [5] 0 (by norm_num)
    {} [{ bars := [⟨2, 1, 1⟩] }] 0 (by norm_num)
    {} [MACross.emptyTable] 0 (by norm_num)
    {} [MSS.emptyTable] 0 (by norm_num)
  exact ⟨h.1.1.trans rfl, h.2.1.1.trans rfl, h.2.1.2.1⟩

/-- C9: `calculate_full` is stateless and repeatable for the MSS strategy:
the method returns the object unchanged (the `market_structure` attribute
set in `__init__` is never consulted or updated — the signal loop threads a
call-local `previous_structure`), the output table does not depend on the
stored `market_structure` value, and a second call on the same untouched
input yields an identical output table. -/
theorem mss_stateless_idempotent (sl ap : Nat) (sm tm : ℚ) (ms ms2 : Int)
    (t : MSS.MSSTable) :
    (MSS.init sl ap sm tm).market_structure = 0 ∧
    (MSS.calculate_full_m ⟨sl, ap, sm, tm, ms⟩ t).1 = ⟨sl, ap, sm, tm, ms⟩ ∧
    (MSS.calculate_full_m ⟨sl, ap, sm, tm, ms⟩ t).2 =
      (MSS.calculate_full_m ⟨sl, ap, sm, tm, ms2⟩ t).2 ∧
    (MSS.calculate_full_m ((MSS.calculate_full_m ⟨sl, ap, sm, tm, ms⟩ t).1) t).2 =
      (MSS.calculate_full_m ⟨sl, ap, sm, tm, ms⟩ t).2 :=
  ⟨rfl, rfl, rfl, rfl⟩
